import Mathlib

/-!
# Verification of the markdown → Google Docs request compiler

This file is a shallow embedding of the `convertMarkdownToRequests` module of
the `google-docs-mcp` repository (`src/markdownToGoogleDocs.ts`, together with
the style-request builders of `src/googleDocsApiHelpers.ts` and the helpers of
`src/markdownParser.ts`), and proofs about it.

Modelling conventions:
* JavaScript strings are Lean `String`s; `.length`, slicing and splitting are
  modelled on the character list `String.data` (all inputs of interest are
  ASCII, where the two length notions agree, and the compiler is internally
  consistent in whichever measure is used).
* Mutable `ConversionContext` state is threaded functionally; JS object
  references into `pendingListItems` are modelled by updating the list at the
  referenced index.
* Thrown exceptions are modelled with `Except`: `Exc.mce` is a thrown
  `MarkdownConversionError`, `Exc.other` any other thrown `Error`
  (`UserError`, `TypeError`, …) identified by its message.
* `token.attrs` being `null` is modelled as `[]` and `token.children` being
  `null` as the empty token list: the compiler only iterates / searches these,
  so the two representations are observationally identical.
* The external markdown-it tokenizer (`parseMarkdown`) is not part of the
  repository; it is passed as a function parameter `tokenize`, and for the
  concrete scenario inputs its output is modelled from the spec's tokenizer
  contract (§6).
-/

namespace GDocs

/-- JavaScript whitespace (the class matched by `\s` in a RegExp and trimmed
by `String.prototype.trim`): space, tab, LF, VT, FF, CR, NBSP, Ogham space,
the U+2000–U+200A range, LS, PS, NNBSP, MMSP, ideographic space, BOM. -/
def isJsWhitespace (c : Char) : Bool :=
  c = ' ' || c = '\t' || c = '\n' || c = '\r' || c.val = 11 || c.val = 12 ||
  c.val = 0xa0 || c.val = 0x1680 || (0x2000 ≤ c.val && c.val ≤ 0x200a) ||
  c.val = 0x2028 || c.val = 0x2029 || c.val = 0x202f || c.val = 0x205f ||
  c.val = 0x3000 || c.val = 0xfeff

/-- JavaScript `String.prototype.trim`: strip `isJsWhitespace` characters from
both ends. -/
def jsTrim (s : String) : String :=
  String.mk (((s.data.dropWhile isJsWhitespace).reverse.dropWhile isJsWhitespace).reverse)

/-- JavaScript truthiness of an optional boolean field (`undefined` and
`false` are falsy). -/
def optionBoolTruthy (o : Option Bool) : Bool :=
  match o with
  | some b => b
  | none => false

/-- JavaScript truthiness of an optional string field (`undefined` and the
empty string are falsy). -/
def optionStrTruthy (o : Option String) : Bool :=
  match o with
  | some s => !s.isEmpty
  | none => false

/-- The `if (tabId) { … }` guards: a tab id is attached only when truthy. -/
def truthyTab (t : Option String) : Option String :=
  match t with
  | some s => if s.isEmpty then none else some s
  | none => none

/-- `pre` is a prefix of `s` (JS `String.prototype.startsWith`). -/
def strStartsWith (pre s : String) : Bool :=
  pre.data.isPrefixOf s.data

/-- The last character of `s` is a newline (JS `s.endsWith('\n')`). -/
def strEndsWithNl (s : String) : Bool :=
  match s.data.getLast? with
  | some c => c = '\n'
  | none => false

/-- The last two characters of `s` are newlines (JS `s.endsWith('\n\n')`). -/
def strEndsWithNlNl (s : String) : Bool :=
  match s.data.reverse with
  | '\n' :: '\n' :: _ => true
  | _ => false

/-- JS `content.split('\n')` (single-character separator). -/
def splitCharsNl : List Char → List Char → List String
  | [], acc => [String.mk acc.reverse]
  | '\n' :: rest, acc => String.mk acc.reverse :: splitCharsNl rest []
  | c :: rest, acc => splitCharsNl rest (c :: acc)

/-- JS `s.split('\n')`. -/
def strSplitNl (s : String) : List String :=
  splitCharsNl s.data []

/-- JS `Array.prototype.join(',')`. -/
def joinComma : List String → String
  | [] => ""
  | [x] => x
  | x :: xs => x ++ "," ++ joinComma xs

/-- The final `Option` value among a list of optional field writes: the most
recent (`last`) defined value wins.  This is the specification-side
"last-writer-wins per field" fold used to check `mergeFormattingStack`. -/
def lastDefined {α : Type} : List (Option α) → Option α
  | [] => none
  | x :: xs =>
    match lastDefined xs with
    | some v => some v
    | none => x

/-- `needle` occurs as a contiguous substring of the character list. -/
def charsContainSub (needle : List Char) : List Char → Bool
  | [] => needle.isEmpty
  | c :: rest => needle.isPrefixOf (c :: rest) || charsContainSub needle rest

/-- `needle` occurs as a contiguous substring of `hay` (JS `includes`). -/
def strContainsSub (needle hay : String) : Bool :=
  charsContainSub needle.data hay.data

/-- A thrown JavaScript exception.  `mce` is a `MarkdownConversionError`
(the class from `types.ts`, distinguished by `instanceof` checks in the code);
`other` is any other `Error` (such as the `UserError` thrown by
`buildUpdateTextStyleRequest` on a malformed hex color, or a `TypeError` from
an undefined property access), identified by its `.message`. -/
inductive Exc : Type where
  | mce (msg : String)
  | other (msg : String)
deriving DecidableEq, Repr

/-- The message of the `MarkdownConversionError` thrown by
`handleListItemOpen` when no list is open. -/
def listItemMsg : String := "List item found outside of list context"

/-- The message head prepended by `convertMarkdownToRequests`'s catch block
when it wraps a non-`MarkdownConversionError` fault. -/
def convWrapHead : String := "Failed to convert markdown: "

/-- The catch block of `convertMarkdownToRequests` (README lines 629–636):
re-throw a `MarkdownConversionError` unchanged; wrap any other error into a
`MarkdownConversionError` carrying the original message. -/
def wrapConversionError : Exc → Exc
  | Exc.mce m => Exc.mce m
  | Exc.other m => Exc.mce (convWrapHead ++ m)

-- ### Tokens (the shape of markdown-it tokens consumed by the compiler)

mutual

/-- A markdown-it token, restricted to the fields the compiler reads:
`type`, `tag`, `content`, `attrs` and `children`.  A `null` `attrs` is
modelled as `[]`, a `null` `children` as `TokenList.nil` (observationally
identical: the compiler only searches/iterates them). -/
inductive Token : Type where
  | mk (ty : String) (tag : String) (content : String)
       (attrs : List (String × String)) (children : TokenList)

/-- A list of tokens (mutual with `Token` because `inline` tokens carry
child tokens). -/
inductive TokenList : Type where
  | nil : TokenList
  | cons : Token → TokenList → TokenList

end

def Token.ty : Token → String
  | Token.mk t _ _ _ _ => t

def Token.tag : Token → String
  | Token.mk _ t _ _ _ => t

def Token.content : Token → String
  | Token.mk _ _ c _ _ => c

def Token.attrs : Token → List (String × String)
  | Token.mk _ _ _ a _ => a

def Token.children : Token → TokenList
  | Token.mk _ _ _ _ ch => ch

/-- Concatenation of token lists. -/
def TokenList.app : TokenList → TokenList → TokenList
  | TokenList.nil, ts => ts
  | TokenList.cons t ts, us => TokenList.cons t (ts.app us)

-- ### markdownParser.ts helpers

/-- `getLinkHref` (markdownParser.ts): the `href` attribute of a `link_open`
token, or `null`. -/
def getLinkHref (t : Token) : Option String :=
  if t.ty ≠ "link_open" then none
  else
    match t.attrs.find? (fun attr => attr.1 = "href") with
    | some attr => some attr.2
    | none => none

/-- The regex search `tag.match(/h(\d)/)`: find the first `h` immediately
followed by a digit, and return that digit's value. -/
def findHDigit : List Char → Option Nat
  | [] => none
  | 'h' :: c :: rest => if c.isDigit then some (c.toNat - 48) else findHDigit (c :: rest)
  | _ :: rest => findHDigit rest

/-- `getHeadingLevel` (markdownParser.ts): for tokens whose type starts with
`heading_`, extract the numeric level from the tag (`h1` … `h6`). -/
def getHeadingLevel (t : Token) : Option Nat :=
  if ¬ strStartsWith "heading_" t.ty then none
  else findHDigit t.tag.data

-- ### Internal types of markdownToGoogleDocs.ts

/-- `FormattingState`: one fragment of inline formatting (all fields
optional). -/
structure FormattingState : Type where
  bold : Option Bool := none
  italic : Option Bool := none
  strikethrough : Option Bool := none
  link : Option String := none
  code : Option Bool := none
deriving DecidableEq, Repr

/-- The keys of `FormattingState` (`keyof FormattingState` in the source),
used by `popFormatting`. -/
inductive FmtKey : Type where
  | bold | italic | strikethrough | link | code
deriving DecidableEq, Repr

/-- Whether the given field of a `FormattingState` is defined
(`state[type] !== undefined`). -/
def formattingFieldDefined (f : FormattingState) : FmtKey → Bool
  | FmtKey.bold => f.bold.isSome
  | FmtKey.italic => f.italic.isSome
  | FmtKey.strikethrough => f.strikethrough.isSome
  | FmtKey.link => f.link.isSome
  | FmtKey.code => f.code.isSome

/-- `TextRange`: a styled span recorded for emitted literal text. -/
structure TextRange : Type where
  startIndex : Nat
  endIndex : Nat
  formatting : FormattingState
deriving DecidableEq, Repr

/-- `ParagraphRange`: a paragraph-level range (headings). -/
structure ParagraphRange : Type where
  startIndex : Nat
  endIndex : Nat
  namedStyleType : Option String := none
deriving DecidableEq, Repr

/-- The two list kinds. -/
inductive ListType : Type where
  | bullet | ordered
deriving DecidableEq, Repr

/-- `ListState`: an entry of the open-list stack. -/
structure ListState : Type where
  type : ListType
  level : Nat
deriving DecidableEq, Repr

/-- `PendingListItem`: a list item whose final range is resolved later. -/
structure PendingListItem : Type where
  startIndex : Nat
  endIndex : Option Nat := none
  nestingLevel : Nat
  bulletPreset : String
  taskPrefixProcessed : Bool
deriving DecidableEq, Repr

-- ### Google Docs API request model (docs_v1 schemas, restricted to the
-- fields this compiler produces)

/-- `docs_v1.Schema$TextStyle`, restricted to the fields
`buildUpdateTextStyleRequest` can set.  Colors keep the hex string that was
validated by `hexToRgbColor` (the RGB float components are never inspected
by this module). -/
structure TextStyle : Type where
  bold : Option Bool := none
  italic : Option Bool := none
  underline : Option Bool := none
  strikethrough : Option Bool := none
  fontSize : Option Int := none
  weightedFontFamily : Option String := none
  foregroundColor : Option String := none
  backgroundColor : Option String := none
  link : Option String := none
deriving DecidableEq, Repr

/-- `TextStyleArgs` (types.ts): the argument record of
`buildUpdateTextStyleRequest`. -/
structure TextStyleArgs : Type where
  bold : Option Bool := none
  italic : Option Bool := none
  underline : Option Bool := none
  strikethrough : Option Bool := none
  fontSize : Option Int := none
  fontFamily : Option String := none
  foregroundColor : Option String := none
  backgroundColor : Option String := none
  linkUrl : Option String := none
deriving DecidableEq, Repr

/-- The fixed `borderBottom` payload pushed by `finalizeFormatting` for each
horizontal-rule range; the numeric literals of the source are kept as
rationals. -/
structure BorderBottom : Type where
  red : Rat
  green : Rat
  blue : Rat
  widthMagnitude : Rat
  widthUnit : String
  paddingMagnitude : Rat
  paddingUnit : String
  dashStyle : String
deriving DecidableEq, Repr

/-- `docs_v1.Schema$ParagraphStyle`, restricted to the fields this module
can set. -/
structure ParagraphStyle : Type where
  alignment : Option String := none
  indentStart : Option Int := none
  indentEnd : Option Int := none
  spaceAbove : Option Int := none
  spaceBelow : Option Int := none
  namedStyleType : Option String := none
  keepWithNext : Option Bool := none
  borderBottom : Option BorderBottom := none
deriving DecidableEq, Repr

/-- `ParagraphStyleArgs` (types.ts): the argument record of
`buildUpdateParagraphStyleRequest`. -/
structure ParagraphStyleArgs : Type where
  alignment : Option String := none
  indentStart : Option Int := none
  indentEnd : Option Int := none
  spaceAbove : Option Int := none
  spaceBelow : Option Int := none
  namedStyleType : Option String := none
  keepWithNext : Option Bool := none
deriving DecidableEq, Repr

/-- `docs_v1.Schema$Request`, restricted to the request kinds this compiler
emits.  Each constructor carries the range/location (with the optional tab
id), and the request payload. -/
inductive Request : Type where
  | insertTextReq (index : Nat) (tabId : Option String) (text : String)
  | updateTextStyleReq (startIndex endIndex : Nat) (tabId : Option String)
      (textStyle : TextStyle) (fields : String)
  | updateParagraphStyleReq (startIndex endIndex : Nat) (tabId : Option String)
      (paragraphStyle : ParagraphStyle) (fields : String)
  | createParagraphBulletsReq (startIndex endIndex : Nat) (tabId : Option String)
      (bulletPreset : String)
deriving DecidableEq, Repr

def Request.isInsert : Request → Bool
  | Request.insertTextReq _ _ _ => true
  | _ => false

def Request.isBullet : Request → Bool
  | Request.createParagraphBulletsReq _ _ _ _ => true
  | _ => false

/-- The inserted text of an insertion request (`""` otherwise). -/
def Request.insText : Request → String
  | Request.insertTextReq _ _ t => t
  | _ => ""

/-- The length contribution of a request to the running offset. -/
def Request.insLen : Request → Nat
  | Request.insertTextReq _ _ t => t.length
  | _ => 0

/-- Sum of the lengths of the inserted texts of a request list. -/
def sumInsLen (rs : List Request) : Nat :=
  (rs.map Request.insLen).sum

-- ### googleDocsApiHelpers.ts: style request builders

/-- Modelled from the spec: `hexToRgbColor` lives in the repository's
`types.ts`, which is absent from the sources; per §6 only the validity of the
hex color matters to this module, so the conversion is modelled as a format
check returning the validated hex string (`none` on a malformed color, which
makes `buildUpdateTextStyleRequest` throw). -/
def hexToRgbColor (hex : String) : Option String :=
  match hex.data with
  | '#' :: rest =>
    if (rest.length = 6 || rest.length = 3) && rest.all (fun c => c.isDigit || ('a' ≤ c && c ≤ 'f') || ('A' ≤ c && c ≤ 'F')) then
      some hex
    else none
  | _ => none

/-- The non-fallible field accumulation of `buildUpdateTextStyleRequest`
(bold, italic, underline, strikethrough, fontSize, fontFamily — in source
order). -/
def textStyleAccBase (style : TextStyleArgs) : TextStyle × List String :=
  let acc : TextStyle × List String := ({}, [])
  let acc := match style.bold with
    | some b => ({ acc.1 with bold := some b }, acc.2 ++ ["bold"])
    | none => acc
  let acc := match style.italic with
    | some b => ({ acc.1 with italic := some b }, acc.2 ++ ["italic"])
    | none => acc
  let acc := match style.underline with
    | some b => ({ acc.1 with underline := some b }, acc.2 ++ ["underline"])
    | none => acc
  let acc := match style.strikethrough with
    | some b => ({ acc.1 with strikethrough := some b }, acc.2 ++ ["strikethrough"])
    | none => acc
  let acc := match style.fontSize with
    | some n => ({ acc.1 with fontSize := some n }, acc.2 ++ ["fontSize"])
    | none => acc
  match style.fontFamily with
    | some f => ({ acc.1 with weightedFontFamily := some f }, acc.2 ++ ["weightedFontFamily"])
    | none => acc

/-- The color steps of `buildUpdateTextStyleRequest`: each throws a
`UserError` on a malformed hex color. -/
def textStyleAccColors (style : TextStyleArgs) (acc0 : TextStyle × List String) :
    Except Exc (TextStyle × List String) := do
  let acc ← match style.foregroundColor with
    | some hex =>
      match hexToRgbColor hex with
      | none => Except.error (Exc.other ("Invalid foreground hex color format: " ++ hex))
      | some rgb => pure ({ acc0.1 with foregroundColor := some rgb }, acc0.2 ++ ["foregroundColor"])
    | none => pure acc0
  match style.backgroundColor with
    | some hex =>
      match hexToRgbColor hex with
      | none => Except.error (Exc.other ("Invalid background hex color format: " ++ hex))
      | some rgb => pure ({ acc.1 with backgroundColor := some rgb }, acc.2 ++ ["backgroundColor"])
    | none => pure acc

/-- The link step of `buildUpdateTextStyleRequest`. -/
def textStyleAccLink (style : TextStyleArgs) (acc : TextStyle × List String) :
    TextStyle × List String :=
  match style.linkUrl with
  | some u => ({ acc.1 with link := some u }, acc.2 ++ ["link"])
  | none => acc

/-- `buildUpdateTextStyleRequest` (googleDocsApiHelpers.ts lines 416–485):
accumulate the defined style fields into a `TextStyle` plus a field list,
throwing a `UserError` on a malformed hex color; return `none` when no field
is set, else the `updateTextStyle` request and the field list. -/
def buildUpdateTextStyleRequest (startIndex endIndex : Nat) (style : TextStyleArgs)
    (tabId : Option String) : Except Exc (Option (Request × List String)) := do
  let acc ← textStyleAccColors style (textStyleAccBase style)
  let acc := textStyleAccLink style acc
  if acc.2.length = 0 then pure none
  else
    pure (some (Request.updateTextStyleReq startIndex endIndex (truthyTab tabId) acc.1
      (joinComma acc.2), acc.2))

/-- The sequential field accumulation of `buildUpdateParagraphStyleRequest`
(alignment, indentStart, indentEnd, spaceAbove, spaceBelow, namedStyleType,
keepWithNext — in source order). -/
def paragraphStyleAcc (style : ParagraphStyleArgs) : ParagraphStyle × List String :=
  let acc : ParagraphStyle × List String := ({}, [])
  let acc := match style.alignment with
    | some a => ({ acc.1 with alignment := some a }, acc.2 ++ ["alignment"])
    | none => acc
  let acc := match style.indentStart with
    | some n => ({ acc.1 with indentStart := some n }, acc.2 ++ ["indentStart"])
    | none => acc
  let acc := match style.indentEnd with
    | some n => ({ acc.1 with indentEnd := some n }, acc.2 ++ ["indentEnd"])
    | none => acc
  let acc := match style.spaceAbove with
    | some n => ({ acc.1 with spaceAbove := some n }, acc.2 ++ ["spaceAbove"])
    | none => acc
  let acc := match style.spaceBelow with
    | some n => ({ acc.1 with spaceBelow := some n }, acc.2 ++ ["spaceBelow"])
    | none => acc
  let acc := match style.namedStyleType with
    | some n => ({ acc.1 with namedStyleType := some n }, acc.2 ++ ["namedStyleType"])
    | none => acc
  match style.keepWithNext with
    | some b => ({ acc.1 with keepWithNext := some b }, acc.2 ++ ["keepWithNext"])
    | none => acc

/-- `buildUpdateParagraphStyleRequest` (googleDocsApiHelpers.ts lines
486–…): accumulate the defined paragraph style fields; return `none` when no
field is set. -/
def buildUpdateParagraphStyleRequest (startIndex endIndex : Nat)
    (style : ParagraphStyleArgs) (tabId : Option String) :
    Option (Request × List String) :=
  if (paragraphStyleAcc style).2.length = 0 then none
  else
    some (Request.updateParagraphStyleReq startIndex endIndex (truthyTab tabId)
      (paragraphStyleAcc style).1 (joinComma (paragraphStyleAcc style).2),
      (paragraphStyleAcc style).2)

-- ### Conversion context and constants

def CODE_FONT_FAMILY : String := "Roboto Mono"
def CODE_TEXT_HEX : String := "#188038"
def CODE_BACKGROUND_HEX : String := "#F1F3F4"

/-- `ConversionContext`: the mutable aggregate threaded through the pass. -/
structure ConversionContext : Type where
  currentIndex : Nat
  insertRequests : List Request
  formatRequests : List Request
  textRanges : List TextRange
  formattingStack : List FormattingState
  listStack : List ListState
  paragraphRanges : List ParagraphRange
  pendingListItems : List PendingListItem
  openListItemStack : List Nat
  hrRanges : List (Nat × Nat)
  tabId : Option String
  currentParagraphStart : Option Nat
  currentHeadingLevel : Option Nat
deriving DecidableEq, Repr

/-- The fresh context built at the start of `convertMarkdownToRequests`. -/
def initialContext (startIndex : Nat) (tabId : Option String) : ConversionContext :=
  { currentIndex := startIndex
    insertRequests := []
    formatRequests := []
    textRanges := []
    formattingStack := []
    listStack := []
    paragraphRanges := []
    pendingListItems := []
    openListItemStack := []
    hrRanges := []
    tabId := tabId
    currentParagraphStart := none
    currentHeadingLevel := none }

-- ### Core emission helper

/-- `insertText` (README lines 976–990): push an insertion request located at
`currentIndex` (with the tab id when truthy) and advance `currentIndex` by
the text's length. -/
def insertText (text : String) (c : ConversionContext) : ConversionContext :=
  { c with
    insertRequests :=
      c.insertRequests ++ [Request.insertTextReq c.currentIndex (truthyTab c.tabId) text]
    currentIndex := c.currentIndex + text.length }

/-- The text of the most recent insertion request
(`insertRequests[length-1]?.insertText?.text`). -/
def lastInsertText (c : ConversionContext) : Option String :=
  match c.insertRequests.getLast? with
  | some (Request.insertTextReq _ _ t) => some t
  | some _ => none
  | none => none

/-- `lastInsertEndsWithNewline` (README lines 1157–1160). -/
def lastInsertEndsWithNewline (c : ConversionContext) : Bool :=
  match lastInsertText c with
  | some t => !t.isEmpty && strEndsWithNl t
  | none => false

/-- `lastInsertEndsWithDoubleNewline` (README lines 1162–1165). -/
def lastInsertEndsWithDoubleNewline (c : ConversionContext) : Bool :=
  match lastInsertText c with
  | some t => !t.isEmpty && strEndsWithNlNl t
  | none => false

-- ### Formatting stack management

/-- One step of `mergeFormattingStack`'s loop: each defined field of `state`
overrides the accumulator's field. -/
def mergeOneFormattingState (merged state : FormattingState) : FormattingState :=
  { bold := match state.bold with | some b => some b | none => merged.bold
    italic := match state.italic with | some b => some b | none => merged.italic
    strikethrough := match state.strikethrough with | some b => some b | none => merged.strikethrough
    code := match state.code with | some b => some b | none => merged.code
    link := match state.link with | some l => some l | none => merged.link }

/-- `mergeFormattingStack` (README lines 994–1006): fold the stack from
oldest to newest, last writer wins per field. -/
def mergeFormattingStack (stack : List FormattingState) : FormattingState :=
  stack.foldl mergeOneFormattingState {}

/-- `hasFormatting` (README lines 1008–1016). -/
def hasFormatting (f : FormattingState) : Bool :=
  f.bold = some true || f.italic = some true || f.strikethrough = some true ||
  f.code = some true || f.link.isSome

/-- `popFormatting` (README lines 1018–1026): remove the last (most recent)
stack entry whose given field is defined; leave the stack unchanged when no
entry carries that field. -/
def popFormatting (c : ConversionContext) (k : FmtKey) : ConversionContext :=
  { c with formattingStack :=
      ((c.formattingStack.reverse).eraseP (fun st => formattingFieldDefined st k)).reverse }

/-- `getCurrentOpenListItem` (README lines 1151–1155): the pending item
referenced by the top of `openListItemStack`, together with its index (the
source returns the mutable object; mutations through it are modelled as
updates at this index).  `none` when the stack is empty or the index is out
of range (`?? null`). -/
def getCurrentOpenListItem (c : ConversionContext) : Option (Nat × PendingListItem) :=
  match c.openListItemStack.getLast? with
  | none => none
  | some i =>
    match c.pendingListItems[i]? with
    | none => none
    | some it => some (i, it)

-- ### Heading handlers

/-- `handleHeadingOpen` (README lines 783–789). -/
def handleHeadingOpen (t : Token) (c : ConversionContext) : ConversionContext :=
  match getHeadingLevel t with
  | some level =>
    if level ≠ 0 then
      { c with currentHeadingLevel := some level, currentParagraphStart := some c.currentIndex }
    else c
  | none => c

/-- `handleHeadingClose` (README lines 791–806). -/
def handleHeadingClose (c : ConversionContext) : ConversionContext :=
  match c.currentHeadingLevel, c.currentParagraphStart with
  | some lvl, some pstart =>
    if lvl ≠ 0 then
      let c1 := { c with paragraphRanges := c.paragraphRanges ++
        [{ startIndex := pstart, endIndex := c.currentIndex,
           namedStyleType := some ("HEADING_" ++ toString lvl) }] }
      let c2 := insertText "\n" c1
      { c2 with currentHeadingLevel := none, currentParagraphStart := none }
    else c
  | _, _ => c

-- ### Horizontal rule handler

/-- `handleHorizontalRule` (README lines 810–824). -/
def handleHorizontalRule (c : ConversionContext) : ConversionContext :=
  let c1 := if ¬ lastInsertEndsWithNewline c then insertText "\n" c else c
  let start := c1.currentIndex
  let c2 := insertText "\n" c1
  { c2 with hrRanges := c2.hrRanges ++ [(start, c2.currentIndex)] }

-- ### Paragraph handlers

/-- `handleParagraphOpen` (README lines 828–833). -/
def handleParagraphOpen (c : ConversionContext) : ConversionContext :=
  if c.listStack.length = 0 then
    { c with currentParagraphStart := some c.currentIndex }
  else c

/-- The terminator-emission step of `handleParagraphClose` (README lines
836–843): a double newline outside lists, a guarded single newline inside
lists. -/
def paragraphCloseEmit (c : ConversionContext) : ConversionContext :=
  if c.listStack.length = 0 then insertText "\n\n" c
  else if ¬ lastInsertEndsWithNewline c then insertText "\n" c
  else c

/-- The list-item end-recording step of `handleParagraphClose` (README lines
845–853). -/
def paragraphCloseRecordEnd (c1 : ConversionContext) : ConversionContext :=
  match getCurrentOpenListItem c1 with
  | some (i, item) =>
    let paragraphEndIndex :=
      if lastInsertEndsWithNewline c1 then c1.currentIndex - 1 else c1.currentIndex
    if paragraphEndIndex > item.startIndex then
      { c1 with pendingListItems :=
          c1.pendingListItems.set i ({ item with endIndex := some paragraphEndIndex }) }
    else c1
  | none => c1

/-- `handleParagraphClose` (README lines 835–855). -/
def handleParagraphClose (c : ConversionContext) : ConversionContext :=
  let c2 := paragraphCloseRecordEnd (paragraphCloseEmit c)
  { c2 with currentParagraphStart := none }

-- ### List handlers

/-- The fresh pending item registered by `handleListItemOpen` (README lines
872–878): ordered lists get the numbered preset, bullet lists the disc
preset. -/
def newListItem (itemStart : Nat) (currentList : ListState) : PendingListItem :=
  { startIndex := itemStart
    endIndex := none
    nestingLevel := currentList.level
    bulletPreset :=
      if currentList.type = ListType.ordered then "NUMBERED_DECIMAL_ALPHA_ROMAN"
      else "BULLET_DISC_CIRCLE_SQUARE"
    taskPrefixProcessed := false }

/-- `handleListItemOpen` (README lines 859–881): throws when no list is
open; otherwise records the item start (tabs included), emits the leading
indent tabs for nested items, and registers a pending item. -/
def handleListItemOpen (c : ConversionContext) : Except Exc ConversionContext :=
  match c.listStack.getLast? with
  | none => Except.error (Exc.mce listItemMsg)
  | some currentList =>
    let itemStart := c.currentIndex
    let c1 := if currentList.level > 0 then
        insertText (String.mk (List.replicate currentList.level '\t')) c
      else c
    let listItem : PendingListItem := newListItem itemStart currentList
    let idx := c1.pendingListItems.length
    Except.ok { c1 with
      pendingListItems := c1.pendingListItems ++ [listItem]
      openListItemStack := c1.openListItemStack ++ [idx] }

/-- The `endIndex`-filling step of `handleListItemClose` (README lines
890–897): only fired when the item's `endIndex` is still unset. -/
def listItemCloseFill (c0 : ConversionContext) (openIndex : Nat)
    (listItem : PendingListItem) : ConversionContext :=
  if listItem.endIndex = none then
    let computedEndIndex :=
      if lastInsertEndsWithNewline c0 then c0.currentIndex - 1 else c0.currentIndex
    if computedEndIndex > listItem.startIndex then
      { c0 with pendingListItems :=
          (c0.pendingListItems.set openIndex
            ({ listItem with endIndex := some computedEndIndex })) }
    else c0
  else c0

/-- `handleListItemClose` (README lines 883–902): pop the open-item stack
(no-op when empty), fill the item's `endIndex` when still unset, and ensure
the emitted text ends with a newline.  An out-of-range index would be a
JavaScript `TypeError` (modelled as `Exc.other`); it is unreachable from
`initialContext`. -/
def handleListItemClose (c : ConversionContext) : Except Exc ConversionContext :=
  match c.openListItemStack.getLast? with
  | none => Except.ok c
  | some openIndex =>
    let c0 := { c with openListItemStack := c.openListItemStack.dropLast }
    match c0.pendingListItems[openIndex]? with
    | none => Except.error (Exc.other "Cannot read properties of undefined (reading 'endIndex')")
    | some listItem =>
      let c1 := listItemCloseFill c0 openIndex listItem
      Except.ok (if ¬ lastInsertEndsWithNewline c1 then insertText "\n" c1 else c1)

-- ### Text handling

/-- The regex test and slice `text.match(/^\[( |x|X)\]\s+/)` followed by
`text.slice(match[0].length)`: strip a leading task-list marker and the
whitespace run after it. -/
def stripTaskMarker (text : String) : Option String :=
  match text.data with
  | '[' :: c :: ']' :: rest =>
    if c = ' ' || c = 'x' || c = 'X' then
      match rest with
      | [] => none
      | w :: _ =>
        if isJsWhitespace w then some (String.mk (rest.dropWhile isJsWhitespace))
        else none
    else none
  | _ => none

/-- The task-marker stage of `handleTextToken` (README lines 910–919): on
the first text token of a freshly opened list item, mark the item processed
and, when the marker matches, switch the bullet preset to checkbox and strip
the marker.  Returns the (possibly stripped) text and the updated context. -/
def textTokenStripStage (text : String) (c : ConversionContext) :
    String × ConversionContext :=
  match getCurrentOpenListItem c with
  | some (i, item) =>
    if ¬ item.taskPrefixProcessed then
      let item1 := { item with taskPrefixProcessed := true }
      match stripTaskMarker text with
      | some stripped =>
        (stripped, { c with pendingListItems :=
          (c.pendingListItems.set i ({ item1 with bulletPreset := "BULLET_CHECKBOX" })) })
      | none =>
        (text, { c with pendingListItems := c.pendingListItems.set i item1 })
    else (text, c)
  | none => (text, c)

/-- The emission stage of `handleTextToken` (README lines 921–935): emit the
text and record a styled span when the merged formatting is non-empty
(nothing is emitted for text that became empty after stripping). -/
def textTokenEmit (text : String) (c : ConversionContext) : ConversionContext :=
  if text = "" then c
  else
    let startIndex := c.currentIndex
    let endIndex := startIndex + text.length
    let c1 := insertText text c
    let currentFormatting := mergeFormattingStack c1.formattingStack
    if hasFormatting currentFormatting then
      { c1 with textRanges := c1.textRanges ++
        [{ startIndex := startIndex, endIndex := endIndex, formatting := currentFormatting }] }
    else c1

/-- `handleTextToken` (README lines 906–936): possibly strip a task-list
marker (once per item, on the first text token of a freshly opened item),
emit the text, and record a styled span when the merged formatting is
non-empty. -/
def handleTextToken (t : Token) (c : ConversionContext) : ConversionContext :=
  let text := t.content
  if text = "" then c
  else
    let step := textTokenStripStage text c
    textTokenEmit step.1 step.2

/-- `handleCodeInlineToken` (README lines 938–942). -/
def handleCodeInlineToken (t : Token) (c : ConversionContext) : ConversionContext :=
  let c1 := { c with formattingStack := c.formattingStack ++ [{ code := some true }] }
  let c2 := handleTextToken t c1
  popFormatting c2 FmtKey.code

/-- The line computation of `handleCodeBlockToken`: drop one trailing
newline, then split on newlines (a fully empty content yields one empty
line). -/
def codeBlockLines (content : String) : List String :=
  let normalized := if strEndsWithNl content then String.mk content.data.dropLast else content
  if normalized.length > 0 then strSplitNl normalized else [""]

/-- One iteration of `handleCodeBlockToken`'s loop: emit the line (a single
space for an empty line), record a code-styled span over the line's own
characters, then emit the line terminator. -/
def applyCodeLine (c : ConversionContext) (line : String) : ConversionContext :=
  let startIndex := c.currentIndex
  let c1 :=
    if line.length > 0 then
      let ca := insertText line c
      { ca with textRanges := ca.textRanges ++
        [{ startIndex := startIndex, endIndex := ca.currentIndex,
           formatting := { code := some true } }] }
    else
      let ca := insertText " " c
      { ca with textRanges := ca.textRanges ++
        [{ startIndex := startIndex, endIndex := ca.currentIndex,
           formatting := { code := some true } }] }
  insertText "\n" c1

/-- `handleCodeBlockToken` (README lines 944–974). -/
def handleCodeBlockToken (t : Token) (c : ConversionContext) : ConversionContext :=
  let c1 := (codeBlockLines t.content).foldl applyCodeLine c
  if ¬ lastInsertEndsWithDoubleNewline c1 then insertText "\n" c1 else c1

-- ### Token dispatch (processToken, README lines 641–779)

mutual

/-- `processToken`: the switch over `token.type`.  Note the source's switch
fall-through: every structural table token (`tbody_open` … `table_close`)
shares the `fence`/`code_block` arm and is handled by
`handleCodeBlockToken`. -/
def processToken (t : Token) (c : ConversionContext) : Except Exc ConversionContext :=
  match t with
  | Token.mk ty _ _ _ children =>
    match ty with
    | "heading_open" => Except.ok (handleHeadingOpen t c)
    | "heading_close" => Except.ok (handleHeadingClose c)
    | "paragraph_open" => Except.ok (handleParagraphOpen c)
    | "paragraph_close" => Except.ok (handleParagraphClose c)
    | "text" => Except.ok (handleTextToken t c)
    | "code_inline" => Except.ok (handleCodeInlineToken t c)
    | "strong_open" =>
      Except.ok { c with formattingStack := c.formattingStack ++ [{ bold := some true }] }
    | "strong_close" => Except.ok (popFormatting c FmtKey.bold)
    | "em_open" =>
      Except.ok { c with formattingStack := c.formattingStack ++ [{ italic := some true }] }
    | "em_close" => Except.ok (popFormatting c FmtKey.italic)
    | "s_open" =>
      Except.ok { c with formattingStack := c.formattingStack ++ [{ strikethrough := some true }] }
    | "s_close" => Except.ok (popFormatting c FmtKey.strikethrough)
    | "link_open" =>
      Except.ok (match getLinkHref t with
        | some href =>
          if href = "" then c
          else { c with formattingStack := c.formattingStack ++ [{ link := some href }] }
        | none => c)
    | "link_close" => Except.ok (popFormatting c FmtKey.link)
    | "bullet_list_open" =>
      Except.ok { c with listStack := c.listStack ++
        [{ type := ListType.bullet, level := c.listStack.length }] }
    | "bullet_list_close" => Except.ok { c with listStack := c.listStack.dropLast }
    | "ordered_list_open" =>
      Except.ok { c with listStack := c.listStack ++
        [{ type := ListType.ordered, level := c.listStack.length }] }
    | "ordered_list_close" => Except.ok { c with listStack := c.listStack.dropLast }
    | "list_item_open" => handleListItemOpen c
    | "list_item_close" => handleListItemClose c
    | "softbreak" => Except.ok (insertText " " c)
    | "hardbreak" => Except.ok (insertText "\n" c)
    | "inline" => processTokenList children c
    | "table_open" => Except.ok c
    | "tbody_open" | "tbody_close" | "thead_open" | "thead_close"
    | "tr_open" | "tr_close" | "th_open" | "th_close" | "td_open" | "td_close"
    | "table_close" | "fence" | "code_block" => Except.ok (handleCodeBlockToken t c)
    | "hr" => Except.ok (handleHorizontalRule c)
    | "blockquote_open" | "blockquote_close" => Except.ok c
    | _ => Except.ok c

/-- The `for (const token of parsed.tokens)` loop (and the loop over
`token.children` in the `inline` arm): process tokens left to right,
propagating the first thrown error. -/
def processTokenList (ts : TokenList) (c : ConversionContext) : Except Exc ConversionContext :=
  match ts with
  | TokenList.nil => Except.ok c
  | TokenList.cons t rest =>
    match processToken t c with
    | Except.error e => Except.error e
    | Except.ok c1 => processTokenList rest c1

end

-- ### Finalization (finalizeFormatting, README lines 1030–1149)

/-- The `TextStyleArgs` this module passes for a styled span (code spans get
the fixed font and colors). -/
def styleArgsForRange (r : TextRange) : TextStyleArgs :=
  { bold := r.formatting.bold
    italic := r.formatting.italic
    strikethrough := r.formatting.strikethrough
    fontFamily := if optionBoolTruthy r.formatting.code then some CODE_FONT_FAMILY else none
    foregroundColor := if optionBoolTruthy r.formatting.code then some CODE_TEXT_HEX else none
    backgroundColor := if optionBoolTruthy r.formatting.code then some CODE_BACKGROUND_HEX else none }

/-- Build a character-style request and push it onto `formatRequests` when
one results (the `if (styleRequest) { … push(styleRequest.request) }`
pattern of `finalizeFormatting`). -/
def pushStyleRequest (si ei : Nat) (args : TextStyleArgs) (c : ConversionContext) :
    Except Exc ConversionContext := do
  match ← buildUpdateTextStyleRequest si ei args c.tabId with
  | some pr => pure { c with formatRequests := c.formatRequests ++ [pr.1] }
  | none => pure c

/-- One iteration of `finalizeFormatting`'s first loop: the character-style
request (when a truthy style field exists) and the separate link request
(when a link is present). -/
def applyTextRange (r : TextRange) (c : ConversionContext) : Except Exc ConversionContext := do
  let c1 ←
    if optionBoolTruthy r.formatting.bold || optionBoolTruthy r.formatting.italic ||
       optionBoolTruthy r.formatting.strikethrough || optionBoolTruthy r.formatting.code then
      pushStyleRequest r.startIndex r.endIndex (styleArgsForRange r) c
    else pure c
  if optionStrTruthy r.formatting.link then
    pushStyleRequest r.startIndex r.endIndex ({ linkUrl := r.formatting.link } : TextStyleArgs) c1
  else pure c1

/-- The first loop of `finalizeFormatting`, over all recorded spans. -/
def applyTextRangesLoop : List TextRange → ConversionContext → Except Exc ConversionContext
  | [], c => Except.ok c
  | r :: rs, c =>
    match applyTextRange r c with
    | Except.error e => Except.error e
    | Except.ok c1 => applyTextRangesLoop rs c1

/-- One iteration of `finalizeFormatting`'s paragraph loop (headings). -/
def applyParagraphRange (pr : ParagraphRange) (c : ConversionContext) : ConversionContext :=
  match pr.namedStyleType with
  | some nst =>
    if nst ≠ "" then
      match buildUpdateParagraphStyleRequest pr.startIndex pr.endIndex
        { namedStyleType := some nst } c.tabId with
      | some p => { c with formatRequests := c.formatRequests ++ [p.1] }
      | none => c
    else c
  | none => c

/-- The fixed bottom-border payload pushed for a horizontal rule. -/
def hrBorderBottom : BorderBottom :=
  { red := 3/4, green := 3/4, blue := 3/4
    widthMagnitude := 1, widthUnit := "PT"
    paddingMagnitude := 6, paddingUnit := "PT"
    dashStyle := "SOLID" }

/-- One iteration of `finalizeFormatting`'s horizontal-rule loop. -/
def applyHrRange (c : ConversionContext) (hr : Nat × Nat) : ConversionContext :=
  { c with formatRequests := c.formatRequests ++
    [Request.updateParagraphStyleReq hr.1 hr.2 (truthyTab c.tabId)
      { borderBottom := some hrBorderBottom } "borderBottom"] }

/-- The filter of `finalizeFormatting`'s list-item pass: keep items whose
`endIndex` is set and strictly greater than `startIndex`. -/
def survivingListItem (it : PendingListItem) : Bool :=
  match it.endIndex with
  | some e => decide (e > it.startIndex)
  | none => false

/-- Stable insertion into a list sorted by descending `startIndex`
(equal keys keep their existing order, matching the stable JS
`sort((a, b) => b.startIndex - a.startIndex)`). -/
def insertByStartDesc (x : PendingListItem) : List PendingListItem → List PendingListItem
  | [] => [x]
  | y :: ys =>
    if x.startIndex ≤ y.startIndex then y :: insertByStartDesc x ys
    else x :: y :: ys

/-- The stable descending sort by `startIndex` used on surviving list
items. -/
def sortByStartDesc (l : List PendingListItem) : List PendingListItem :=
  l.foldl (fun acc x => insertByStartDesc x acc) []

/-- The body of `finalizeFormatting`'s list-item loop for one surviving item
(with the source's redundant inner re-check). -/
def mkBulletRequest (tab : Option String) (it : PendingListItem) : List Request :=
  match it.endIndex with
  | some e =>
    if e > it.startIndex then
      [Request.createParagraphBulletsReq it.startIndex e (truthyTab tab) it.bulletPreset]
    else []
  | none => []

/-- The list-item pass of `finalizeFormatting` (README lines 1123–1148):
filter, sort descending by `startIndex`, emit one bullet request per item. -/
def finalizeListItems (c : ConversionContext) : ConversionContext :=
  let listItemsForFormatting := sortByStartDesc (c.pendingListItems.filter survivingListItem)
  { c with formatRequests :=
      c.formatRequests ++ (listItemsForFormatting.map (mkBulletRequest c.tabId)).flatten }

/-- `finalizeFormatting` (README lines 1030–1149): the four sequential
passes — styled spans, heading paragraph styles, horizontal-rule borders and
list bullets. -/
def finalizeFormatting (c : ConversionContext) : Except Exc ConversionContext :=
  match applyTextRangesLoop c.textRanges c with
  | Except.error e => Except.error e
  | Except.ok c1 =>
    let c2 := c1.paragraphRanges.foldl (fun acc pr => applyParagraphRange pr acc) c1
    let c3 := c2.hrRanges.foldl applyHrRange c2
    Except.ok (finalizeListItems c3)

-- ### Top level

/-- The token pass, finalization, and the `insertions first, then
formatting` return of `convertMarkdownToRequests`, with the catch block
(`wrapConversionError`) around everything in the `try`. -/
def convertTokensToRequests (tokens : TokenList) (startIndex : Nat)
    (tabId : Option String) : Except Exc (List Request) :=
  match (match processTokenList tokens (initialContext startIndex tabId) with
         | Except.ok c =>
           (match finalizeFormatting c with
            | Except.ok c2 => Except.ok (c2.insertRequests ++ c2.formatRequests)
            | Except.error e => Except.error e)
         | Except.error e => Except.error e) with
  | Except.ok reqs => Except.ok reqs
  | Except.error e => Except.error (wrapConversionError e)

/-- `convertMarkdownToRequests` (README lines 593–637), with the external
markdown-it tokenizer (`parseMarkdown`) passed as the parameter `tokenize`:
empty or whitespace-only input short-circuits to an empty request list
before tokenization. -/
def convertMarkdownToRequests (tokenize : String → TokenList) (markdown : String)
    (startIndex : Nat) (tabId : Option String) : Except Exc (List Request) :=
  if markdown = "" ∨ (jsTrim markdown).length = 0 then Except.ok []
  else convertTokensToRequests (tokenize markdown) startIndex tabId

/-- The request list of an `ok` conversion result (`[]` on error). -/
def okOps : Except Exc (List Request) → List Request
  | Except.ok l => l
  | Except.error _ => []

-- ### Modelled tokenizer outputs for the concrete scenario inputs

/-- Convenience constructor for tokens. -/
def tk (ty : String) (tag : String := "") (content : String := "")
    (attrs : List (String × String) := []) (children : TokenList := TokenList.nil) : Token :=
  Token.mk ty tag content attrs children

/-- Convenience constructor for token lists. -/
def tl (l : List Token) : TokenList :=
  l.foldr TokenList.cons TokenList.nil

/-- Modelled from the spec: the token stream the external CommonMark/GFM
tokenizer (markdown-it, §6 tokenizer contract) produces for the input
`"**bold text**"` — one paragraph whose inline content is a strong-wrapped
text token. -/
def tokensBoldText : TokenList :=
  tl [tk "paragraph_open" "p",
      tk "inline" "" "**bold text**" []
        (tl [tk "strong_open" "strong", tk "text" "" "bold text",
             tk "strong_close" "strong"]),
      tk "paragraph_close" "p"]

/-- Modelled from the spec: the token stream for
`"- [x] done\n- [ ] todo"` — one bullet list with two items, each a
paragraph with a single text token carrying the raw task-list marker. -/
def tokensTaskList : TokenList :=
  tl [tk "bullet_list_open" "ul",
      tk "list_item_open" "li",
      tk "paragraph_open" "p",
      tk "inline" "" "[x] done" [] (tl [tk "text" "" "[x] done"]),
      tk "paragraph_close" "p",
      tk "list_item_close" "li",
      tk "list_item_open" "li",
      tk "paragraph_open" "p",
      tk "inline" "" "[ ] todo" [] (tl [tk "text" "" "[ ] todo"]),
      tk "paragraph_close" "p",
      tk "list_item_close" "li",
      tk "bullet_list_close" "ul"]

/-- Modelled from the spec: the token stream for `"- - a"` — an outer bullet
list whose single item immediately contains a nested bullet list (both item
opens occur before any text is emitted, so both pending items record the
same start offset). -/
def tokensNestedList : TokenList :=
  tl [tk "bullet_list_open" "ul",
      tk "list_item_open" "li",
      tk "bullet_list_open" "ul",
      tk "list_item_open" "li",
      tk "paragraph_open" "p",
      tk "inline" "" "a" [] (tl [tk "text" "" "a"]),
      tk "paragraph_close" "p",
      tk "list_item_close" "li",
      tk "bullet_list_close" "ul",
      tk "list_item_close" "li",
      tk "bullet_list_close" "ul"]

/-- Modelled from the spec: the tokens for the first paragraph of the loose
list item `"- a\n\n  b"`, up to and including the first paragraph close. -/
def tokensLoosePre : TokenList :=
  tl [tk "bullet_list_open" "ul",
      tk "list_item_open" "li",
      tk "paragraph_open" "p",
      tk "inline" "" "a" [] (tl [tk "text" "" "a"]),
      tk "paragraph_close" "p"]

/-- Modelled from the spec: the remaining tokens of `"- a\n\n  b"` — the
item's second paragraph and the closes. -/
def tokensLooseRest : TokenList :=
  tl [tk "paragraph_open" "p",
      tk "inline" "" "b" [] (tl [tk "text" "" "b"]),
      tk "paragraph_close" "p",
      tk "list_item_close" "li",
      tk "bullet_list_close" "ul"]

/-- Modelled from the spec: the full token stream for `"- a\n\n  b"` (a
loose list item containing two paragraphs). -/
def tokensLooseList : TokenList :=
  tokensLoosePre.app tokensLooseRest

/-- Modelled from the spec: the external tokenizer, restricted to the
concrete scenario inputs used by the claims (any other input is mapped to
the empty token stream; the theorems only evaluate it at the listed
inputs). -/
def modelTokenizer (md : String) : TokenList :=
  if md = "**bold text**" then tokensBoldText
  else if md = "- [x] done\n- [ ] todo" then tokensTaskList
  else if md = "- - a" then tokensNestedList
  else if md = "- a\n\n  b" then tokensLooseList
  else TokenList.nil

-- ### Observation helpers for the theorems

/-- The insertion requests of a request list are laid out contiguously from
`off`: each insertion is located exactly at the running offset, which then
advances by the inserted text's length. -/
inductive WellPlaced : Nat → List Request → Prop where
  | nil (off : Nat) : WellPlaced off []
  | cons (off : Nat) (tab : Option String) (t : String) (rs : List Request) :
      WellPlaced (off + t.length) rs →
      WellPlaced off (Request.insertTextReq off tab t :: rs)

/-- Every offset a request addresses lies inside `[lo, hi]`. -/
def opWithin (lo hi : Nat) : Request → Bool
  | Request.insertTextReq i _ t => decide (lo ≤ i) && decide (i + t.length ≤ hi)
  | Request.updateTextStyleReq a b _ _ _ => decide (lo ≤ a) && decide (a ≤ b) && decide (b ≤ hi)
  | Request.updateParagraphStyleReq a b _ _ _ =>
      decide (lo ≤ a) && decide (a ≤ b) && decide (b ≤ hi)
  | Request.createParagraphBulletsReq a b _ _ =>
      decide (lo ≤ a) && decide (a ≤ b) && decide (b ≤ hi)

/-- The `startIndex` of a bullet-assignment request (`0` for any other
request kind). -/
def bulletStart : Request → Nat
  | Request.createParagraphBulletsReq a _ _ _ => a
  | _ => 0

/-- The invariant maintained by the token pass, relative to the starting
offset `s`. -/
structure Inv (s : Nat) (c : ConversionContext) : Prop where
  idx : c.currentIndex = s + sumInsLen c.insertRequests
  placed : WellPlaced s c.insertRequests
  fmtnil : c.formatRequests = []
  tr : ∀ r ∈ c.textRanges,
    s ≤ r.startIndex ∧ r.startIndex < r.endIndex ∧ r.endIndex ≤ c.currentIndex
  pr : ∀ r ∈ c.paragraphRanges,
    s ≤ r.startIndex ∧ r.startIndex ≤ r.endIndex ∧ r.endIndex ≤ c.currentIndex
  hrr : ∀ r ∈ c.hrRanges, s ≤ r.1 ∧ r.1 < r.2 ∧ r.2 ≤ c.currentIndex
  pli : ∀ it ∈ c.pendingListItems,
    s ≤ it.startIndex ∧ it.startIndex ≤ c.currentIndex ∧
    ∀ e, it.endIndex = some e → it.startIndex < e ∧ e < c.currentIndex
  olis : ∀ i ∈ c.openListItemStack, i < c.pendingListItems.length
  cps : ∀ p, c.currentParagraphStart = some p → s ≤ p ∧ p ≤ c.currentIndex

/-- How one step of the pass may change the context: the offset only grows,
the tab id is fixed, pending list items are append-only, and a pending
item's recorded `endIndex`, once set, only moves forward. -/
structure Evolves (c c' : ConversionContext) : Prop where
  idxLe : c.currentIndex ≤ c'.currentIndex
  tabEq : c'.tabId = c.tabId
  pliLen : c.pendingListItems.length ≤ c'.pendingListItems.length
  pliMono : ∀ (j : Nat) (it : PendingListItem), c.pendingListItems[j]? = some it →
    ∃ it', c'.pendingListItems[j]? = some it' ∧ it'.startIndex = it.startIndex ∧
      ∀ e, it.endIndex = some e → ∃ e', it'.endIndex = some e' ∧ e ≤ e'

theorem Evolves.refl (c : ConversionContext) : Evolves c c :=
  ⟨Nat.le_refl _, Eq.refl _, Nat.le_refl _,
   fun _ it h => ⟨it, h, Eq.refl _, fun e he => ⟨e, he, Nat.le_refl _⟩⟩⟩

theorem Evolves.trans {a b c : ConversionContext} (h1 : Evolves a b) (h2 : Evolves b c) :
    Evolves a c := by
  refine ⟨Nat.le_trans h1.idxLe h2.idxLe, h2.tabEq.trans h1.tabEq,
    Nat.le_trans h1.pliLen h2.pliLen, ?_⟩
  intro j it hj
  obtain ⟨it1, hj1, hs1, he1⟩ := h1.pliMono j it hj
  obtain ⟨it2, hj2, hs2, he2⟩ := h2.pliMono j it1 hj1
  refine ⟨it2, hj2, hs2.trans hs1, ?_⟩
  intro e he
  obtain ⟨e1, he1', hle1⟩ := he1 e he
  obtain ⟨e2, he2', hle2⟩ := he2 e1 he1'
  exact ⟨e2, he2', Nat.le_trans hle1 hle2⟩

-- ### Basic lemmas about offsets and insertions

theorem mem_of_getLast?_eq {α : Type} {l : List α} {x : α} (h : l.getLast? = some x) :
    x ∈ l := by
  obtain ⟨hne, hx⟩ := List.mem_getLast?_eq_getLast (l := l) (x := x) (by rw [h]; rfl)
  subst hx
  exact List.getLast_mem hne

theorem sumInsLen_append (a b : List Request) :
    sumInsLen (a ++ b) = sumInsLen a + sumInsLen b := by
  simp [sumInsLen]

theorem sumInsLen_single (r : Request) : sumInsLen [r] = r.insLen := by
  simp [sumInsLen]

theorem strLength_pos {s : String} (h : s ≠ "") : 0 < s.length := by
  cases s with
  | mk data =>
    cases data with
    | nil => exact absurd rfl h
    | cons c cs => simp [String.length]

theorem wellPlaced_append_insert (s : Nat) (rs : List Request) (tab : Option String)
    (t : String) (h : WellPlaced s rs) :
    WellPlaced s (rs ++ [Request.insertTextReq (s + sumInsLen rs) tab t]) := by
  induction h with
  | nil off =>
    simpa [sumInsLen] using
      WellPlaced.cons off tab t [] (WellPlaced.nil _)
  | cons off tab' t' rs' _ ih =>
    have : off + sumInsLen (Request.insertTextReq off tab' t' :: rs') =
        (off + t'.length) + sumInsLen rs' := by
      simp [sumInsLen, Request.insLen]
      omega
    rw [List.cons_append, this]
    exact WellPlaced.cons off tab' t' _ ih

theorem wellPlaced_bounds (s : Nat) (rs : List Request) (h : WellPlaced s rs) :
    ∀ r ∈ rs, ∃ i tab t, r = Request.insertTextReq i tab t ∧
      s ≤ i ∧ i + t.length ≤ s + sumInsLen rs := by
  induction h with
  | nil off => intro r hr; cases hr
  | cons off tab t rs' hwp ih =>
    intro r hr
    rcases List.mem_cons.mp hr with h1 | h2
    · subst h1
      refine ⟨off, tab, t, Eq.refl _, Nat.le_refl _, ?_⟩
      simp [sumInsLen, Request.insLen]
    · obtain ⟨i, tab', t', heq, hlo, hhi⟩ := ih r h2
      refine ⟨i, tab', t', heq, Nat.le_trans (Nat.le_add_right _ _) hlo, ?_⟩
      have : sumInsLen (Request.insertTextReq off tab t :: rs') = t.length + sumInsLen rs' := by
        simp [sumInsLen, Request.insLen]
      omega

theorem lastInsertText_insertText (t : String) (c : ConversionContext) :
    lastInsertText (insertText t c) = some t := by
  simp [lastInsertText, insertText, List.getLast?_concat]

theorem lastInsertEndsWithNewline_insertText (t : String) (c : ConversionContext) :
    lastInsertEndsWithNewline (insertText t c) = (!t.isEmpty && strEndsWithNl t) := by
  simp [lastInsertEndsWithNewline, lastInsertText_insertText]

theorem endsNl_single_newline (c : ConversionContext) :
    lastInsertEndsWithNewline (insertText "\n" c) = true := by
  rw [lastInsertEndsWithNewline_insertText]; rfl

theorem endsNl_double_newline (c : ConversionContext) :
    lastInsertEndsWithNewline (insertText "\n\n" c) = true := by
  rw [lastInsertEndsWithNewline_insertText]; rfl

/-- When the most recent insertion ends with a newline, at least one
character has been inserted. -/
theorem endsNl_sumInsLen_pos {c : ConversionContext}
    (h : lastInsertEndsWithNewline c = true) : 1 ≤ sumInsLen c.insertRequests := by
  unfold lastInsertEndsWithNewline lastInsertText at h
  rcases hlast : c.insertRequests.getLast? with _ | r
  · rw [hlast] at h; simp at h
  · rw [hlast] at h
    cases r with
    | insertTextReq i tab t =>
      simp only at h
      have ht : t ≠ "" := by
        intro he; subst he
        exact (by decide : ¬((!"".isEmpty && strEndsWithNl "") = true)) h
      have hmem : Request.insertTextReq i tab t ∈ c.insertRequests := mem_of_getLast?_eq hlast
      have : (Request.insertTextReq i tab t).insLen ≤ sumInsLen c.insertRequests := by
        exact List.single_le_sum (fun y _ => Nat.zero_le y) _
          (List.mem_map_of_mem Request.insLen hmem)
      have hpos : 0 < t.length := strLength_pos ht
      simp [Request.insLen] at this
      omega
    | updateTextStyleReq a b tab ts f => simp at h
    | updateParagraphStyleReq a b tab ps f => simp at h
    | createParagraphBulletsReq a b tab bp => simp at h

/-- `insertText` preserves the pass invariant and is an evolution step. -/
theorem inv_insertText {s : Nat} {c : ConversionContext} (t : String) (h : Inv s c) :
    Inv s (insertText t c) ∧ Evolves c (insertText t c) := by
  have hci : (insertText t c).currentIndex = c.currentIndex + t.length := rfl
  have hle : c.currentIndex ≤ (insertText t c).currentIndex := by
    rw [hci]; exact Nat.le_add_right _ _
  constructor
  · refine ⟨?_, ?_, h.fmtnil, ?_, ?_, ?_, ?_, h.olis, ?_⟩
    · show c.currentIndex + t.length =
        s + sumInsLen (c.insertRequests ++ [Request.insertTextReq c.currentIndex (truthyTab c.tabId) t])
      rw [sumInsLen_append, sumInsLen_single]
      have := h.idx
      simp [Request.insLen]
      omega
    · show WellPlaced s (c.insertRequests ++ [Request.insertTextReq c.currentIndex (truthyTab c.tabId) t])
      rw [h.idx]
      exact wellPlaced_append_insert s c.insertRequests _ t h.placed
    · intro r hr
      obtain ⟨h1, h2, h3⟩ := h.tr r hr
      exact ⟨h1, h2, Nat.le_trans h3 hle⟩
    · intro r hr
      obtain ⟨h1, h2, h3⟩ := h.pr r hr
      exact ⟨h1, h2, Nat.le_trans h3 hle⟩
    · intro r hr
      obtain ⟨h1, h2, h3⟩ := h.hrr r hr
      exact ⟨h1, h2, Nat.le_trans h3 hle⟩
    · intro it hit
      obtain ⟨h1, h2, h3⟩ := h.pli it hit
      refine ⟨h1, Nat.le_trans h2 hle, ?_⟩
      intro e he
      obtain ⟨h4, h5⟩ := h3 e he
      exact ⟨h4, Nat.lt_of_lt_of_le h5 hle⟩
    · intro p hp
      obtain ⟨h1, h2⟩ := h.cps p hp
      exact ⟨h1, Nat.le_trans h2 hle⟩
  · exact ⟨hle, Eq.refl _, Nat.le_refl _,
      fun _ it hj => ⟨it, hj, Eq.refl _, fun e he => ⟨e, he, Nat.le_refl _⟩⟩⟩

/-- Unfolding one step of the token loop when the head token succeeds. -/
theorem processTokenList_cons_ok {t : Token} {c c1 : ConversionContext} {rest : TokenList}
    (h : processToken t c = Except.ok c1) :
    processTokenList (TokenList.cons t rest) c = processTokenList rest c1 := by
  rw [show processTokenList (TokenList.cons t rest) c =
      (match processToken t c with
       | Except.error e => Except.error e
       | Except.ok c1 => processTokenList rest c1) from rfl, h]

/-- The top-level conversion, rewritten through a successful pass and
finalization. -/
theorem convertTokens_eq_of_pass {ts : TokenList} {s : Nat} {tab : Option String}
    {ctx ctx2 : ConversionContext}
    (h1 : processTokenList ts (initialContext s tab) = Except.ok ctx)
    (h2 : finalizeFormatting ctx = Except.ok ctx2) :
    convertTokensToRequests ts s tab =
      Except.ok (ctx2.insertRequests ++ ctx2.formatRequests) := by
  unfold convertTokensToRequests
  rw [h1]
  show (match (match finalizeFormatting ctx with
        | Except.ok c2 => Except.ok (c2.insertRequests ++ c2.formatRequests)
        | Except.error e => Except.error e) with
      | Except.ok reqs => Except.ok reqs
      | Except.error e => Except.error (wrapConversionError e)) =
    Except.ok (ctx2.insertRequests ++ ctx2.formatRequests)
  rw [h2]

theorem Inv.startLe {s : Nat} {c : ConversionContext} (h : Inv s c) :
    s ≤ c.currentIndex := by
  rw [h.idx]; exact Nat.le_add_right _ _

/-- Changing only the formatting stack, the list stack and the two scratch
fields preserves the invariant (given the new paragraph-start scratch is in
bounds). -/
theorem inv_mk_stacks {s : Nat} {c : ConversionContext} (h : Inv s c)
    {fs : List FormattingState} {ls : List ListState} {cps' chl : Option Nat}
    (hcps : ∀ p, cps' = some p → s ≤ p ∧ p ≤ c.currentIndex) :
    Inv s { c with formattingStack := fs, listStack := ls,
                   currentParagraphStart := cps', currentHeadingLevel := chl } :=
  ⟨h.idx, h.placed, h.fmtnil, h.tr, h.pr, h.hrr, h.pli, h.olis, hcps⟩

theorem evolves_mk_stacks (c : ConversionContext)
    {fs : List FormattingState} {ls : List ListState} {cps' chl : Option Nat} :
    Evolves c { c with formattingStack := fs, listStack := ls,
                       currentParagraphStart := cps', currentHeadingLevel := chl } :=
  ⟨Nat.le_refl _, Eq.refl _, Nat.le_refl _,
   fun _ it hj => ⟨it, hj, Eq.refl _, fun e he => ⟨e, he, Nat.le_refl _⟩⟩⟩

theorem mem_of_getElem?_eq {α : Type} {l : List α} {i : Nat} {x : α}
    (h : l[i]? = some x) : x ∈ l := by
  have hi := (List.getElem?_eq_some.mp h).1
  have hg := List.getElem?_eq_getElem hi
  rw [hg] at h
  cases h
  exact List.getElem_mem hi

/-- Updating the pending item at a referenced index preserves the invariant,
provided the replacement keeps the start offset, keeps any recorded end in
bounds, and only moves a recorded end forward. -/
theorem inv_set_pli {s : Nat} {c : ConversionContext} {i : Nat} {item : PendingListItem}
    (h : Inv s c) (hi : c.pendingListItems[i]? = some item)
    (item' : PendingListItem)
    (hstart : item'.startIndex = item.startIndex)
    (hend : ∀ e, item'.endIndex = some e → item'.startIndex < e ∧ e < c.currentIndex)
    (hmono : ∀ e, item.endIndex = some e → ∃ e', item'.endIndex = some e' ∧ e ≤ e') :
    Inv s { c with pendingListItems := c.pendingListItems.set i item' } ∧
    Evolves c { c with pendingListItems := c.pendingListItems.set i item' } := by
  have hmem : item ∈ c.pendingListItems := mem_of_getElem?_eq hi
  have hlen := (List.getElem?_eq_some.mp hi).1
  obtain ⟨hb1, hb2, _⟩ := h.pli item hmem
  constructor
  · refine ⟨h.idx, h.placed, h.fmtnil, h.tr, h.pr, h.hrr, ?_, ?_, h.cps⟩
    · intro it hit
      rcases List.mem_or_eq_of_mem_set hit with hold | hnew
      · exact h.pli it hold
      · subst hnew
        exact ⟨hstart ▸ hb1, hstart ▸ hb2, hend⟩
    · intro j hj
      have := h.olis j hj
      simpa [List.length_set] using this
  · refine ⟨Nat.le_refl _, Eq.refl _, ?_, ?_⟩
    · simp [List.length_set]
    · intro j it hj
      by_cases hji : j = i
      · subst hji
        rw [hi] at hj
        cases hj
        refine ⟨item', ?_, hstart, hmono⟩
        simp [List.getElem?_set_self', hlen]
      · refine ⟨it, ?_, Eq.refl _, fun e he => ⟨e, he, Nat.le_refl _⟩⟩
        rw [List.getElem?_set_ne (fun he => hji he.symm)]
        exact hj

theorem inv_handleHeadingOpen {s : Nat} {c : ConversionContext} (t : Token) (h : Inv s c) :
    Inv s (handleHeadingOpen t c) ∧ Evolves c (handleHeadingOpen t c) := by
  unfold handleHeadingOpen
  cases getHeadingLevel t with
  | none => exact ⟨h, Evolves.refl c⟩
  | some level =>
    simp only
    split
    · refine ⟨inv_mk_stacks h ?_, evolves_mk_stacks c⟩
      intro p hp
      cases hp
      exact ⟨h.startLe, Nat.le_refl _⟩
    · exact ⟨h, Evolves.refl c⟩

theorem inv_handleParagraphOpen {s : Nat} {c : ConversionContext} (h : Inv s c) :
    Inv s (handleParagraphOpen c) ∧ Evolves c (handleParagraphOpen c) := by
  unfold handleParagraphOpen
  split
  · refine ⟨inv_mk_stacks h ?_, evolves_mk_stacks c⟩
    intro p hp
    cases hp
    exact ⟨h.startLe, Nat.le_refl _⟩
  · exact ⟨h, Evolves.refl c⟩

theorem inv_handleHeadingClose {s : Nat} {c : ConversionContext} (h : Inv s c) :
    Inv s (handleHeadingClose c) ∧ Evolves c (handleHeadingClose c) := by
  unfold handleHeadingClose
  split
  · next lvl pstart hlvl hps =>
    split
    · -- push paragraph range, then insert "\n", then clear scratch fields
      obtain ⟨hps1, hps2⟩ := h.cps pstart hps
      have h1 : Inv s { c with paragraphRanges := c.paragraphRanges ++
          [{ startIndex := pstart, endIndex := c.currentIndex,
             namedStyleType := some ("HEADING_" ++ toString lvl) }] } := by
        refine ⟨h.idx, h.placed, h.fmtnil, h.tr, ?_, h.hrr, h.pli, h.olis, h.cps⟩
        intro r hr
        rcases List.mem_append.mp hr with hm | hm
        · exact h.pr r hm
        · rcases List.mem_singleton.mp hm with rfl
          exact ⟨hps1, hps2, Nat.le_refl _⟩
      have e1 : Evolves c { c with paragraphRanges := c.paragraphRanges ++
          [{ startIndex := pstart, endIndex := c.currentIndex,
             namedStyleType := some ("HEADING_" ++ toString lvl) }] } :=
        ⟨Nat.le_refl _, Eq.refl _, Nat.le_refl _,
         fun _ it hj => ⟨it, hj, Eq.refl _, fun e he => ⟨e, he, Nat.le_refl _⟩⟩⟩
      obtain ⟨h2, e2⟩ := inv_insertText "\n" h1
      refine ⟨inv_mk_stacks h2 (fun p hp => by cases hp), ?_⟩
      exact (e1.trans e2).trans (evolves_mk_stacks _)
    · exact ⟨h, Evolves.refl c⟩
  · exact ⟨h, Evolves.refl c⟩

theorem inv_handleHorizontalRule {s : Nat} {c : ConversionContext} (h : Inv s c) :
    Inv s (handleHorizontalRule c) ∧ Evolves c (handleHorizontalRule c) := by
  unfold handleHorizontalRule
  have step1 : ∀ c1 : ConversionContext, Inv s c1 → Evolves c c1 →
      Inv s (let c2 := insertText "\n" c1;
             { c2 with hrRanges := c2.hrRanges ++ [(c1.currentIndex, c2.currentIndex)] }) ∧
      Evolves c (let c2 := insertText "\n" c1;
             { c2 with hrRanges := c2.hrRanges ++ [(c1.currentIndex, c2.currentIndex)] }) := by
    intro c1 h1 e1
    obtain ⟨h2, e2⟩ := inv_insertText "\n" h1
    have hci : (insertText "\n" c1).currentIndex = c1.currentIndex + 1 := rfl
    constructor
    · refine ⟨h2.idx, h2.placed, h2.fmtnil, h2.tr, h2.pr, ?_, h2.pli, h2.olis, h2.cps⟩
      intro r hr
      rcases List.mem_append.mp hr with hm | hm
      · exact h2.hrr r hm
      · rcases List.mem_singleton.mp hm with rfl
        refine ⟨h1.startLe, ?_, Nat.le_refl _⟩
        show c1.currentIndex < (insertText "\n" c1).currentIndex
        rw [hci]; omega
    · refine (e1.trans e2).trans ?_
      exact ⟨Nat.le_refl _, Eq.refl _, Nat.le_refl _,
        fun _ it hj => ⟨it, hj, Eq.refl _, fun e he => ⟨e, he, Nat.le_refl _⟩⟩⟩
  split
  · obtain ⟨ha, hb⟩ := inv_insertText "\n" h
    exact step1 (insertText "\n" c) ha hb
  · exact step1 c h (Evolves.refl c)

theorem getCurrentOpenListItem_some {c : ConversionContext} {i : Nat} {item : PendingListItem}
    (h : getCurrentOpenListItem c = some (i, item)) :
    c.pendingListItems[i]? = some item := by
  unfold getCurrentOpenListItem at h
  split at h
  · cases h
  · split at h
    · cases h
    · next hg => cases h; exact hg

/-- The invariant implies the insertion offset is positive once an inserted
text ends in a newline. -/
theorem endsNl_ci_pos {s : Nat} {c : ConversionContext} (h : Inv s c)
    (hnl : lastInsertEndsWithNewline c = true) : 1 ≤ c.currentIndex := by
  have := endsNl_sumInsLen_pos hnl
  rw [h.idx]
  omega

theorem inv_paragraphCloseEmit {s : Nat} {c : ConversionContext} (h : Inv s c) :
    Inv s (paragraphCloseEmit c) ∧ Evolves c (paragraphCloseEmit c) ∧
    lastInsertEndsWithNewline (paragraphCloseEmit c) = true := by
  unfold paragraphCloseEmit
  split
  · exact ⟨(inv_insertText _ h).1, (inv_insertText _ h).2, endsNl_double_newline c⟩
  · split
    · exact ⟨(inv_insertText _ h).1, (inv_insertText _ h).2, endsNl_single_newline c⟩
    · next hcond =>
      refine ⟨h, Evolves.refl c, ?_⟩
      exact Decidable.of_not_not hcond

theorem inv_paragraphCloseRecordEnd {s : Nat} {c1 : ConversionContext} (h : Inv s c1)
    (hnl : lastInsertEndsWithNewline c1 = true) :
    Inv s (paragraphCloseRecordEnd c1) ∧ Evolves c1 (paragraphCloseRecordEnd c1) := by
  unfold paragraphCloseRecordEnd
  cases hgc : getCurrentOpenListItem c1 with
  | none => exact ⟨h, Evolves.refl c1⟩
  | some pair =>
    obtain ⟨i, item⟩ := pair
    have hg : c1.pendingListItems[i]? = some item := getCurrentOpenListItem_some hgc
    simp only [hnl, if_true]
    split
    · next hguard =>
      have hci : 1 ≤ c1.currentIndex := endsNl_ci_pos h hnl
      refine inv_set_pli h hg _ (Eq.refl _) ?_ ?_
      · intro e he
        cases he
        constructor
        · exact hguard
        · omega
      · intro e he
        obtain ⟨_, _, h3⟩ := h.pli item (mem_of_getElem?_eq hg)
        obtain ⟨_, h5⟩ := h3 e he
        exact ⟨c1.currentIndex - 1, Eq.refl _, by omega⟩
    · exact ⟨h, Evolves.refl c1⟩

theorem inv_handleParagraphClose {s : Nat} {c : ConversionContext} (h : Inv s c) :
    Inv s (handleParagraphClose c) ∧ Evolves c (handleParagraphClose c) := by
  obtain ⟨h1, e1, hnl⟩ := inv_paragraphCloseEmit h
  obtain ⟨h2, e2⟩ := inv_paragraphCloseRecordEnd h1 hnl
  unfold handleParagraphClose
  exact ⟨inv_mk_stacks h2 (fun p hp => by cases hp),
         (e1.trans e2).trans (evolves_mk_stacks _)⟩

/-- How a successful or failing token step is classified relative to the
invariant: success preserves `Inv` and evolves the context; the only
reachable error is the caller-input list-item error. -/
def StepOK (s : Nat) (c : ConversionContext) : Except Exc ConversionContext → Prop
  | Except.ok c' => Inv s c' ∧ Evolves c c'
  | Except.error e => e = Exc.mce listItemMsg

/-- Appending a fresh pending item and pushing its index (the final step of
`handleListItemOpen`). -/
def pushPli (c : ConversionContext) (item : PendingListItem) : ConversionContext :=
  { c with pendingListItems := c.pendingListItems ++ [item], openListItemStack := c.openListItemStack ++ [c.pendingListItems.length] }

/-- Appending a fresh pending item and pushing its index preserves the
invariant. -/
theorem inv_append_pli {s : Nat} {c : ConversionContext} (h : Inv s c)
    (item : PendingListItem)
    (hs1 : s ≤ item.startIndex) (hs2 : item.startIndex ≤ c.currentIndex)
    (hend : item.endIndex = none) :
    Inv s (pushPli c item) ∧ Evolves c (pushPli c item) := by
  unfold pushPli
  constructor
  · refine ⟨h.idx, h.placed, h.fmtnil, h.tr, h.pr, h.hrr, ?_, ?_, h.cps⟩
    · intro it hit
      rcases List.mem_append.mp hit with hold | hnew
      · exact h.pli it hold
      · rcases List.mem_singleton.mp hnew with rfl
        refine ⟨hs1, hs2, ?_⟩
        intro e he
        rw [hend] at he
        cases he
    · intro j hj
      rcases List.mem_append.mp hj with hold | hnew
      · have := h.olis j hold
        simp only [List.length_append, List.length_singleton]
        omega
      · rcases List.mem_singleton.mp hnew with rfl
        simp only [List.length_append, List.length_singleton]
        omega
  · refine ⟨Nat.le_refl _, Eq.refl _, ?_, ?_⟩
    · simp
    · intro j it hj
      have hlt := (List.getElem?_eq_some.mp hj).1
      refine ⟨it, ?_, Eq.refl _, fun e he => ⟨e, he, Nat.le_refl _⟩⟩
      rw [List.getElem?_append_left hlt]
      exact hj

theorem stepOK_handleListItemOpen {s : Nat} {c : ConversionContext} (h : Inv s c) :
    StepOK s c (handleListItemOpen c) := by
  unfold handleListItemOpen
  cases hl : c.listStack.getLast? with
  | none => exact Eq.refl _
  | some currentList =>
    simp only
    split
    · -- nested item: leading tabs are emitted first
      obtain ⟨h1, e1⟩ := inv_insertText (String.mk (List.replicate currentList.level '\t')) h
      obtain ⟨h2, e2⟩ := inv_append_pli h1 (newListItem c.currentIndex currentList)
        h.startLe e1.idxLe (Eq.refl _)
      exact ⟨h2, e1.trans e2⟩
    · obtain ⟨h2, e2⟩ := inv_append_pli h (newListItem c.currentIndex currentList)
        h.startLe (Nat.le_refl _) (Eq.refl _)
      exact ⟨h2, e2⟩

theorem endsNl_set_pli (c : ConversionContext) (X : List PendingListItem) :
    lastInsertEndsWithNewline { c with pendingListItems := X } =
      lastInsertEndsWithNewline c := rfl

/-- The tail of `handleListItemClose` (fill plus guarded terminator)
preserves the invariant and evolves the context. -/
theorem stepOK_itemClose_tail {s : Nat} {c0 : ConversionContext} {openIndex : Nat}
    {listItem : PendingListItem} (h0 : Inv s c0)
    (hg : c0.pendingListItems[openIndex]? = some listItem) :
    Inv s (if ¬ lastInsertEndsWithNewline (listItemCloseFill c0 openIndex listItem) then
             insertText "\n" (listItemCloseFill c0 openIndex listItem)
           else listItemCloseFill c0 openIndex listItem) ∧
    Evolves c0 (if ¬ lastInsertEndsWithNewline (listItemCloseFill c0 openIndex listItem) then
             insertText "\n" (listItemCloseFill c0 openIndex listItem)
           else listItemCloseFill c0 openIndex listItem) := by
  cases hE : listItem.endIndex with
  | some e =>
    have hfill : listItemCloseFill c0 openIndex listItem = c0 := by
      unfold listItemCloseFill
      rw [if_neg (by rw [hE]; intro hx; cases hx)]
    rw [hfill]
    split
    · exact ⟨(inv_insertText _ h0).1, (inv_insertText _ h0).2⟩
    · exact ⟨h0, Evolves.refl c0⟩
  | none =>
    by_cases hnl : lastInsertEndsWithNewline c0 = true
    · -- the computed end is `currentIndex - 1`
      have hci : 1 ≤ c0.currentIndex := endsNl_ci_pos h0 hnl
      by_cases hguard : (if lastInsertEndsWithNewline c0 then c0.currentIndex - 1
          else c0.currentIndex) > listItem.startIndex
      · have hfill : listItemCloseFill c0 openIndex listItem =
            { c0 with pendingListItems := (c0.pendingListItems.set openIndex { listItem with endIndex := some (c0.currentIndex - 1) }) } := by
          unfold listItemCloseFill
          rw [if_pos hE, if_pos hguard, if_pos hnl]
        rw [hfill]
        obtain ⟨hI, hEv⟩ := inv_set_pli h0 hg
          ({ listItem with endIndex := some (c0.currentIndex - 1) })
          (Eq.refl _)
          (by
            intro e he
            injection he with he2
            subst he2
            rw [if_pos hnl] at hguard
            exact ⟨hguard, by omega⟩)
          (by intro e he; rw [hE] at he; cases he)
        rw [endsNl_set_pli, if_neg (by rw [hnl]; intro hx; exact hx rfl)]
        exact ⟨hI, hEv⟩
      · have hfill : listItemCloseFill c0 openIndex listItem = c0 := by
          unfold listItemCloseFill
          rw [if_pos hE, if_neg hguard]
        rw [hfill, if_neg (by rw [hnl]; intro hx; exact hx rfl)]
        exact ⟨h0, Evolves.refl c0⟩
    · -- no trailing newline yet: the computed end is `currentIndex`, and the
      -- handler then emits the missing terminator
      have hnl' : lastInsertEndsWithNewline c0 = false := by
        cases hx : lastInsertEndsWithNewline c0
        · rfl
        · exact absurd hx hnl
      by_cases hguard : (if lastInsertEndsWithNewline c0 then c0.currentIndex - 1
          else c0.currentIndex) > listItem.startIndex
      · have hfill : listItemCloseFill c0 openIndex listItem =
            { c0 with pendingListItems := (c0.pendingListItems.set openIndex { listItem with endIndex := some c0.currentIndex }) } := by
          unfold listItemCloseFill
          rw [if_pos hE, if_pos hguard, if_neg (by rw [hnl']; intro hx; cases hx)]
        rw [hfill]
        rw [endsNl_set_pli, if_pos (by rw [hnl']; intro hx; cases hx)]
        -- reorder: inserting first, then setting the item, is the same context
        obtain ⟨hI1, hEv1⟩ := inv_insertText "\n" h0
        have hg' : (insertText "\n" c0).pendingListItems[openIndex]? = some listItem := hg
        obtain ⟨hI2, hEv2⟩ := inv_set_pli hI1 hg'
          ({ listItem with endIndex := some c0.currentIndex })
          (Eq.refl _)
          (by
            intro e he
            injection he with he2
            subst he2
            rw [if_neg (by rw [hnl']; intro hx; cases hx)] at hguard
            refine ⟨hguard, ?_⟩
            show c0.currentIndex < (insertText "\n" c0).currentIndex
            have hstep : (insertText "\n" c0).currentIndex = c0.currentIndex + 1 := rfl
            omega)
          (by intro e he; rw [hE] at he; cases he)
        exact ⟨hI2, hEv1.trans hEv2⟩
      · have hfill : listItemCloseFill c0 openIndex listItem = c0 := by
          unfold listItemCloseFill
          rw [if_pos hE, if_neg hguard]
        rw [hfill, if_pos (by rw [hnl']; intro hx; cases hx)]
        exact ⟨(inv_insertText _ h0).1, (inv_insertText _ h0).2⟩

theorem stepOK_handleListItemClose {s : Nat} {c : ConversionContext} (h : Inv s c) :
    StepOK s c (handleListItemClose c) := by
  unfold handleListItemClose
  cases hl : c.openListItemStack.getLast? with
  | none => exact ⟨h, Evolves.refl c⟩
  | some openIndex =>
    simp only
    have hmemIdx : openIndex ∈ c.openListItemStack := mem_of_getLast?_eq hl
    have hlt : openIndex < c.pendingListItems.length := h.olis _ hmemIdx
    have h0 : Inv s { c with openListItemStack := c.openListItemStack.dropLast } := by
      refine ⟨h.idx, h.placed, h.fmtnil, h.tr, h.pr, h.hrr, h.pli, ?_, h.cps⟩
      intro j hj
      exact h.olis j (List.mem_of_mem_dropLast hj)
    have e0 : Evolves c { c with openListItemStack := c.openListItemStack.dropLast } :=
      ⟨Nat.le_refl _, Eq.refl _, Nat.le_refl _,
       fun _ it hj => ⟨it, hj, Eq.refl _, fun e he => ⟨e, he, Nat.le_refl _⟩⟩⟩
    cases hg : ({ c with openListItemStack := c.openListItemStack.dropLast} :
        ConversionContext).pendingListItems[openIndex]? with
    | none =>
      exfalso
      have hlt' : openIndex < ({ c with openListItemStack := c.openListItemStack.dropLast} :
          ConversionContext).pendingListItems.length := hlt
      rw [List.getElem?_eq_getElem hlt'] at hg
      cases hg
    | some listItem =>
      obtain ⟨hI, hEv⟩ := stepOK_itemClose_tail h0 hg
      exact ⟨hI, e0.trans hEv⟩

theorem inv_textTokenStripStage {s : Nat} {c : ConversionContext} (text : String)
    (h : Inv s c) :
    Inv s (textTokenStripStage text c).2 ∧ Evolves c (textTokenStripStage text c).2 := by
  unfold textTokenStripStage
  cases hgc : getCurrentOpenListItem c with
  | none => exact ⟨h, Evolves.refl c⟩
  | some pair =>
    obtain ⟨i, item⟩ := pair
    have hg : c.pendingListItems[i]? = some item := getCurrentOpenListItem_some hgc
    obtain ⟨hb1, hb2, hb3⟩ := h.pli item (mem_of_getElem?_eq hg)
    simp only
    split
    · split
      · exact inv_set_pli h hg _ (Eq.refl _) (fun e he => hb3 e he)
          (fun e he => ⟨e, he, Nat.le_refl _⟩)
      · exact inv_set_pli h hg _ (Eq.refl _) (fun e he => hb3 e he)
          (fun e he => ⟨e, he, Nat.le_refl _⟩)
    · exact ⟨h, Evolves.refl c⟩

theorem inv_textTokenEmit {s : Nat} {c : ConversionContext} (text : String)
    (h : Inv s c) :
    Inv s (textTokenEmit text c) ∧ Evolves c (textTokenEmit text c) := by
  unfold textTokenEmit
  split
  · exact ⟨h, Evolves.refl c⟩
  · next hne =>
    simp only
    obtain ⟨h1, e1⟩ := inv_insertText text h
    split
    · constructor
      · refine ⟨h1.idx, h1.placed, h1.fmtnil, ?_, h1.pr, h1.hrr, h1.pli, h1.olis, h1.cps⟩
        intro r hr
        rcases List.mem_append.mp hr with hold | hnew
        · exact h1.tr r hold
        · rcases List.mem_singleton.mp hnew with rfl
          refine ⟨h.startLe, ?_, ?_⟩
          · show c.currentIndex < c.currentIndex + text.length
            have := strLength_pos hne
            omega
          · show c.currentIndex + text.length ≤ (insertText text c).currentIndex
            exact Nat.le_refl _
      · exact e1.trans ⟨Nat.le_refl _, Eq.refl _, Nat.le_refl _,
          fun _ it hj => ⟨it, hj, Eq.refl _, fun e he => ⟨e, he, Nat.le_refl _⟩⟩⟩
    · exact ⟨h1, e1⟩

theorem inv_handleTextToken {s : Nat} {c : ConversionContext} (t : Token) (h : Inv s c) :
    Inv s (handleTextToken t c) ∧ Evolves c (handleTextToken t c) := by
  have hdef : handleTextToken t c =
      if t.content = "" then c
      else textTokenEmit (textTokenStripStage t.content c).1 (textTokenStripStage t.content c).2 := rfl
  rw [hdef]
  split
  · exact ⟨h, Evolves.refl c⟩
  · obtain ⟨h1, e1⟩ := inv_textTokenStripStage t.content h
    obtain ⟨h2, e2⟩ := inv_textTokenEmit (textTokenStripStage t.content c).1 h1
    exact ⟨h2, e1.trans e2⟩

theorem inv_popFormatting {s : Nat} {c : ConversionContext} (k : FmtKey) (h : Inv s c) :
    Inv s (popFormatting c k) ∧ Evolves c (popFormatting c k) := by
  unfold popFormatting
  exact ⟨inv_mk_stacks h h.cps, evolves_mk_stacks c⟩

theorem inv_pushFormatting {s : Nat} {c : ConversionContext} (f : FormattingState)
    (h : Inv s c) :
    Inv s { c with formattingStack := c.formattingStack ++ [f] } ∧
    Evolves c { c with formattingStack := c.formattingStack ++ [f] } :=
  ⟨inv_mk_stacks h h.cps, evolves_mk_stacks c⟩

theorem inv_handleCodeInlineToken {s : Nat} {c : ConversionContext} (t : Token)
    (h : Inv s c) :
    Inv s (handleCodeInlineToken t c) ∧ Evolves c (handleCodeInlineToken t c) := by
  unfold handleCodeInlineToken
  obtain ⟨h1, e1⟩ := inv_pushFormatting { code := some true } h
  obtain ⟨h2, e2⟩ := inv_handleTextToken t h1
  obtain ⟨h3, e3⟩ := inv_popFormatting FmtKey.code h2
  exact ⟨h3, (e1.trans e2).trans e3⟩

theorem inv_applyCodeLine {s : Nat} {c : ConversionContext} (line : String)
    (h : Inv s c) :
    Inv s (applyCodeLine c line) ∧ Evolves c (applyCodeLine c line) := by
  unfold applyCodeLine
  have core : ∀ (t : String), t ≠ "" →
      Inv s { (insertText t c) with textRanges := (insertText t c).textRanges ++
        [{ startIndex := c.currentIndex, endIndex := (insertText t c).currentIndex,
           formatting := { code := some true } }] } ∧
      Evolves c { (insertText t c) with textRanges := (insertText t c).textRanges ++
        [{ startIndex := c.currentIndex, endIndex := (insertText t c).currentIndex,
           formatting := { code := some true } }] } := by
    intro t hne
    obtain ⟨h1, e1⟩ := inv_insertText t h
    constructor
    · refine ⟨h1.idx, h1.placed, h1.fmtnil, ?_, h1.pr, h1.hrr, h1.pli, h1.olis, h1.cps⟩
      intro r hr
      rcases List.mem_append.mp hr with hold | hnew
      · exact h1.tr r hold
      · rcases List.mem_singleton.mp hnew with rfl
        refine ⟨h.startLe, ?_, Nat.le_refl _⟩
        show c.currentIndex < c.currentIndex + t.length
        have := strLength_pos hne
        omega
    · exact e1.trans ⟨Nat.le_refl _, Eq.refl _, Nat.le_refl _,
        fun _ it hj => ⟨it, hj, Eq.refl _, fun e he => ⟨e, he, Nat.le_refl _⟩⟩⟩
  split
  · next hpos =>
    have hne : line ≠ "" := by
      intro he
      subst he
      exact absurd hpos (by decide)
    obtain ⟨h1, e1⟩ := core line hne
    obtain ⟨h2, e2⟩ := inv_insertText "\n" h1
    exact ⟨h2, e1.trans e2⟩
  · obtain ⟨h1, e1⟩ := core " " (by decide)
    obtain ⟨h2, e2⟩ := inv_insertText "\n" h1
    exact ⟨h2, e1.trans e2⟩

theorem inv_codeLines_fold {s : Nat} (lines : List String) :
    ∀ c : ConversionContext, Inv s c →
      Inv s (lines.foldl applyCodeLine c) ∧ Evolves c (lines.foldl applyCodeLine c) := by
  induction lines with
  | nil => intro c h; exact ⟨h, Evolves.refl c⟩
  | cons l ls ih =>
    intro c h
    obtain ⟨h1, e1⟩ := inv_applyCodeLine l h
    obtain ⟨h2, e2⟩ := ih (applyCodeLine c l) h1
    exact ⟨h2, e1.trans e2⟩

theorem inv_handleCodeBlockToken {s : Nat} {c : ConversionContext} (t : Token)
    (h : Inv s c) :
    Inv s (handleCodeBlockToken t c) ∧ Evolves c (handleCodeBlockToken t c) := by
  have hdef : handleCodeBlockToken t c =
      if ¬ lastInsertEndsWithDoubleNewline ((codeBlockLines t.content).foldl applyCodeLine c) = true
      then insertText "\n" ((codeBlockLines t.content).foldl applyCodeLine c)
      else (codeBlockLines t.content).foldl applyCodeLine c := rfl
  rw [hdef]
  obtain ⟨h1, e1⟩ := inv_codeLines_fold (codeBlockLines t.content) c h
  split
  · obtain ⟨h2, e2⟩ := inv_insertText "\n" h1
    exact ⟨h2, e1.trans e2⟩
  · exact ⟨h1, e1⟩

set_option maxHeartbeats 3200000 in
mutual

/-- Any single token step from an invariant-satisfying context either
preserves the invariant (evolving the context) or fails with the
caller-input list-item error. -/
theorem processToken_sound (s : Nat) (t : Token) (c : ConversionContext) (h : Inv s c) :
    StepOK s c (processToken t c) := by
  cases t with
  | mk ty tag content attrs children =>
    unfold processToken
    split
    · exact ⟨(inv_handleHeadingOpen _ h).1, (inv_handleHeadingOpen _ h).2⟩
    · exact ⟨(inv_handleHeadingClose h).1, (inv_handleHeadingClose h).2⟩
    · exact ⟨(inv_handleParagraphOpen h).1, (inv_handleParagraphOpen h).2⟩
    · exact ⟨(inv_handleParagraphClose h).1, (inv_handleParagraphClose h).2⟩
    · exact ⟨(inv_handleTextToken _ h).1, (inv_handleTextToken _ h).2⟩
    · exact ⟨(inv_handleCodeInlineToken _ h).1, (inv_handleCodeInlineToken _ h).2⟩
    · exact ⟨inv_mk_stacks h h.cps, evolves_mk_stacks c⟩
    · exact ⟨(inv_popFormatting _ h).1, (inv_popFormatting _ h).2⟩
    · exact ⟨inv_mk_stacks h h.cps, evolves_mk_stacks c⟩
    · exact ⟨(inv_popFormatting _ h).1, (inv_popFormatting _ h).2⟩
    · exact ⟨inv_mk_stacks h h.cps, evolves_mk_stacks c⟩
    · exact ⟨(inv_popFormatting _ h).1, (inv_popFormatting _ h).2⟩
    · -- link_open
      cases getLinkHref (Token.mk "link_open" tag content attrs children) with
      | none => exact ⟨h, Evolves.refl c⟩
      | some href =>
        simp only
        split
        · exact ⟨h, Evolves.refl c⟩
        · exact ⟨inv_mk_stacks h h.cps, evolves_mk_stacks c⟩
    · exact ⟨(inv_popFormatting _ h).1, (inv_popFormatting _ h).2⟩
    · exact ⟨inv_mk_stacks h h.cps, evolves_mk_stacks c⟩
    · exact ⟨inv_mk_stacks h h.cps, evolves_mk_stacks c⟩
    · exact ⟨inv_mk_stacks h h.cps, evolves_mk_stacks c⟩
    · exact ⟨inv_mk_stacks h h.cps, evolves_mk_stacks c⟩
    · exact stepOK_handleListItemOpen h
    · exact stepOK_handleListItemClose h
    · exact ⟨(inv_insertText " " h).1, (inv_insertText " " h).2⟩
    · exact ⟨(inv_insertText "\n" h).1, (inv_insertText "\n" h).2⟩
    · exact processTokenList_sound s children c h
    · exact ⟨h, Evolves.refl c⟩
    · exact ⟨(inv_handleCodeBlockToken _ h).1, (inv_handleCodeBlockToken _ h).2⟩
    · exact ⟨(inv_handleCodeBlockToken _ h).1, (inv_handleCodeBlockToken _ h).2⟩
    · exact ⟨(inv_handleCodeBlockToken _ h).1, (inv_handleCodeBlockToken _ h).2⟩
    · exact ⟨(inv_handleCodeBlockToken _ h).1, (inv_handleCodeBlockToken _ h).2⟩
    · exact ⟨(inv_handleCodeBlockToken _ h).1, (inv_handleCodeBlockToken _ h).2⟩
    · exact ⟨(inv_handleCodeBlockToken _ h).1, (inv_handleCodeBlockToken _ h).2⟩
    · exact ⟨(inv_handleCodeBlockToken _ h).1, (inv_handleCodeBlockToken _ h).2⟩
    · exact ⟨(inv_handleCodeBlockToken _ h).1, (inv_handleCodeBlockToken _ h).2⟩
    · exact ⟨(inv_handleCodeBlockToken _ h).1, (inv_handleCodeBlockToken _ h).2⟩
    · exact ⟨(inv_handleCodeBlockToken _ h).1, (inv_handleCodeBlockToken _ h).2⟩
    · exact ⟨(inv_handleCodeBlockToken _ h).1, (inv_handleCodeBlockToken _ h).2⟩
    · exact ⟨(inv_handleCodeBlockToken _ h).1, (inv_handleCodeBlockToken _ h).2⟩
    · exact ⟨(inv_handleCodeBlockToken _ h).1, (inv_handleCodeBlockToken _ h).2⟩
    · exact ⟨(inv_handleHorizontalRule h).1, (inv_handleHorizontalRule h).2⟩
    · exact ⟨h, Evolves.refl c⟩
    · exact ⟨h, Evolves.refl c⟩
    · exact ⟨h, Evolves.refl c⟩

/-- The token loop preserves the invariant (or stops at the caller-input
list-item error). -/
theorem processTokenList_sound (s : Nat) (ts : TokenList) (c : ConversionContext)
    (h : Inv s c) : StepOK s c (processTokenList ts c) := by
  cases ts with
  | nil => exact ⟨h, Evolves.refl c⟩
  | cons t rest =>
    unfold processTokenList
    cases hstep : processToken t c with
    | error e =>
      have hs := processToken_sound s t c h
      rw [hstep] at hs
      exact hs
    | ok c1 =>
      have hs := processToken_sound s t c h
      rw [hstep] at hs
      obtain ⟨hI1, hE1⟩ := hs
      show StepOK s c (processTokenList rest c1)
      have hs2 := processTokenList_sound s rest c1 hI1
      cases hres : processTokenList rest c1 with
      | error e =>
        rw [hres] at hs2
        exact hs2
      | ok c2 =>
        rw [hres] at hs2
        obtain ⟨hI2, hE2⟩ := hs2
        exact ⟨hI2, hE1.trans hE2⟩

end

theorem inv_initialContext (s : Nat) (tab : Option String) :
    Inv s (initialContext s tab) := by
  refine ⟨?_, WellPlaced.nil s, rfl, ?_, ?_, ?_, ?_, ?_, ?_⟩
  · simp [initialContext, sumInsLen]
  · intro r hr; cases hr
  · intro r hr; cases hr
  · intro r hr; cases hr
  · intro it hit; cases hit
  · intro i hi; cases hi
  · intro p hp; cases hp

theorem pass_ok_inv {ts : TokenList} {s : Nat} {tab : Option String}
    {ctx : ConversionContext}
    (h : processTokenList ts (initialContext s tab) = Except.ok ctx) :
    Inv s ctx ∧ Evolves (initialContext s tab) ctx := by
  have hs := processTokenList_sound s ts (initialContext s tab) (inv_initialContext s tab)
  rw [h] at hs
  exact hs

theorem pass_error_msg {ts : TokenList} {s : Nat} {tab : Option String} {e : Exc}
    (h : processTokenList ts (initialContext s tab) = Except.error e) :
    e = Exc.mce listItemMsg := by
  have hs := processTokenList_sound s ts (initialContext s tab) (inv_initialContext s tab)
  rw [h] at hs
  exact hs

-- ### Shape lemmas for the finalization loops

/-- The color steps succeed whenever the color fields hold valid hex
colors. -/
theorem textStyleAccColors_ok (style : TextStyleArgs) (acc0 : TextStyle × List String)
    (hf : ∀ hex, style.foregroundColor = some hex → (hexToRgbColor hex).isSome = true)
    (hb : ∀ hex, style.backgroundColor = some hex → (hexToRgbColor hex).isSome = true) :
    ∃ acc, textStyleAccColors style acc0 = Except.ok acc := by
  rcases hfg : style.foregroundColor with _ | hex1
  · rcases hbg : style.backgroundColor with _ | hex2
    · exact ⟨acc0, by simp [textStyleAccColors, hfg, hbg, pure, Except.pure, bind, Except.bind]⟩
    · obtain ⟨v2, hv2⟩ := Option.isSome_iff_exists.mp (hb hex2 hbg)
      exact ⟨_, by simp [textStyleAccColors, hfg, hbg, hv2, pure, Except.pure, bind, Except.bind] <;> rfl⟩
  · obtain ⟨v1, hv1⟩ := Option.isSome_iff_exists.mp (hf hex1 hfg)
    rcases hbg : style.backgroundColor with _ | hex2
    · exact ⟨_, by simp [textStyleAccColors, hfg, hbg, hv1, pure, Except.pure, bind, Except.bind] <;> rfl⟩
    · obtain ⟨v2, hv2⟩ := Option.isSome_iff_exists.mp (hb hex2 hbg)
      exact ⟨_, by simp [textStyleAccColors, hfg, hbg, hv1, hv2, pure, Except.pure, bind, Except.bind] <;> rfl⟩

/-- `buildUpdateTextStyleRequest` succeeds whenever the color fields hold
valid hex colors, and any produced request is an `updateTextStyle` over the
given range. -/
theorem buildUTS_ok (si ei : Nat) (style : TextStyleArgs) (tab : Option String)
    (hf : ∀ hex, style.foregroundColor = some hex → (hexToRgbColor hex).isSome = true)
    (hb : ∀ hex, style.backgroundColor = some hex → (hexToRgbColor hex).isSome = true) :
    ∃ res, buildUpdateTextStyleRequest si ei style tab = Except.ok res ∧
      ∀ pr, res = some pr →
        ∃ ts fs, pr.1 = Request.updateTextStyleReq si ei (truthyTab tab) ts fs := by
  obtain ⟨acc, hacc⟩ := textStyleAccColors_ok style (textStyleAccBase style) hf hb
  simp only [buildUpdateTextStyleRequest, hacc, bind, Except.bind]
  split
  · exact ⟨none, by simp [pure, Except.pure], fun pr hpr => by cases hpr⟩
  · refine ⟨_, by simp [pure, Except.pure] <;> rfl, ?_⟩
    intro pr hpr
    cases hpr
    exact ⟨_, _, rfl⟩

theorem pushStyleRequest_ok (si ei : Nat) (args : TextStyleArgs) (c : ConversionContext)
    (hf : ∀ hex, args.foregroundColor = some hex → (hexToRgbColor hex).isSome = true)
    (hb : ∀ hex, args.backgroundColor = some hex → (hexToRgbColor hex).isSome = true) :
    ∃ adds, pushStyleRequest si ei args c =
      Except.ok { c with formatRequests := c.formatRequests ++ adds } ∧
      ∀ a ∈ adds, ∃ ts fs, a = Request.updateTextStyleReq si ei (truthyTab c.tabId) ts fs := by
  obtain ⟨res, hres, hshape⟩ := buildUTS_ok si ei args c.tabId hf hb
  cases res with
  | none =>
    refine ⟨[], ?_, fun a ha => by cases ha⟩
    simp [pushStyleRequest, hres, bind, Except.bind, pure, Except.pure]
  | some pr =>
    refine ⟨[pr.1], ?_, ?_⟩
    · simp [pushStyleRequest, hres, bind, Except.bind, pure, Except.pure]
    · intro a ha
      rcases List.mem_singleton.mp ha with rfl
      exact hshape pr (Eq.refl _)

theorem applyTextRange_ok (r : TextRange) (c : ConversionContext) :
    ∃ adds, applyTextRange r c =
      Except.ok { c with formatRequests := c.formatRequests ++ adds } ∧
      ∀ a ∈ adds, ∃ ts fs,
        a = Request.updateTextStyleReq r.startIndex r.endIndex (truthyTab c.tabId) ts fs := by
  have hf1 : ∀ hex, (styleArgsForRange r).foregroundColor = some hex →
      (hexToRgbColor hex).isSome = true := by
    intro hex heq
    simp only [styleArgsForRange] at heq
    split at heq
    · cases heq; decide
    · cases heq
  have hb1 : ∀ hex, (styleArgsForRange r).backgroundColor = some hex →
      (hexToRgbColor hex).isSome = true := by
    intro hex heq
    simp only [styleArgsForRange] at heq
    split at heq
    · cases heq; decide
    · cases heq
  obtain ⟨adds1, hpush1, hshape1⟩ :=
    pushStyleRequest_ok r.startIndex r.endIndex (styleArgsForRange r) c hf1 hb1
  by_cases hc1 : (optionBoolTruthy r.formatting.bold || optionBoolTruthy r.formatting.italic ||
      optionBoolTruthy r.formatting.strikethrough || optionBoolTruthy r.formatting.code) = true
  · obtain ⟨adds2, hpush2, hshape2⟩ :=
      pushStyleRequest_ok r.startIndex r.endIndex
        ({ linkUrl := r.formatting.link } : TextStyleArgs)
        { c with formatRequests := c.formatRequests ++ adds1 }
        (by intro hex heq; cases heq) (by intro hex heq; cases heq)
    by_cases hc2 : optionStrTruthy r.formatting.link = true
    · refine ⟨adds1 ++ adds2, ?_, ?_⟩
      · simp only [applyTextRange, hc1, if_true, hpush1, bind, Except.bind, hc2, hpush2]
        simp [List.append_assoc]
      · intro a ha
        rcases List.mem_append.mp ha with hmem | hmem
        · exact hshape1 a hmem
        · exact hshape2 a hmem
    · refine ⟨adds1, ?_, hshape1⟩
      simp [applyTextRange, hc1, hpush1, bind, Except.bind,
        eq_false_of_ne_true hc2, pure, Except.pure]
  · by_cases hc2 : optionStrTruthy r.formatting.link = true
    · obtain ⟨adds2, hpush2, hshape2⟩ :=
        pushStyleRequest_ok r.startIndex r.endIndex
          ({ linkUrl := r.formatting.link } : TextStyleArgs) c
          (by intro hex heq; cases heq) (by intro hex heq; cases heq)
      refine ⟨adds2, ?_, hshape2⟩
      simp [applyTextRange, eq_false_of_ne_true hc1, bind, Except.bind,
        pure, Except.pure, hc2, hpush2]
    · refine ⟨[], ?_, fun a ha => by cases ha⟩
      simp [applyTextRange, eq_false_of_ne_true hc1, bind, Except.bind,
        pure, Except.pure, eq_false_of_ne_true hc2]

theorem applyTextRangesLoop_ok (trs : List TextRange) :
    ∀ c : ConversionContext, ∃ adds, applyTextRangesLoop trs c =
      Except.ok { c with formatRequests := c.formatRequests ++ adds } ∧
      ∀ a ∈ adds, ∃ tr, tr ∈ trs ∧ ∃ ts fs,
        a = Request.updateTextStyleReq tr.startIndex tr.endIndex (truthyTab c.tabId) ts fs := by
  induction trs with
  | nil =>
    intro c
    refine ⟨[], ?_, fun a ha => by cases ha⟩
    simp [applyTextRangesLoop]
  | cons rr rs ih =>
    intro c
    obtain ⟨adds1, h1, hs1⟩ := applyTextRange_ok rr c
    obtain ⟨adds2, h2, hs2⟩ := ih { c with formatRequests := c.formatRequests ++ adds1 }
    refine ⟨adds1 ++ adds2, ?_, ?_⟩
    · simp only [applyTextRangesLoop, h1, h2]
      simp [List.append_assoc]
    · intro a ha
      rcases List.mem_append.mp ha with hmem | hmem
      · obtain ⟨ts, fs, heq⟩ := hs1 a hmem
        exact ⟨rr, List.mem_cons_self rr rs, ts, fs, heq⟩
      · obtain ⟨tr, htr, ts, fs, heq⟩ := hs2 a hmem
        exact ⟨tr, List.mem_cons_of_mem rr htr, ts, fs, heq⟩

theorem buildUPS_shape (si ei : Nat) (style : ParagraphStyleArgs) (tab : Option String) :
    ∀ pr, buildUpdateParagraphStyleRequest si ei style tab = some pr →
      ∃ ps fs, pr.1 = Request.updateParagraphStyleReq si ei (truthyTab tab) ps fs := by
  unfold buildUpdateParagraphStyleRequest
  intro pr hpr
  split at hpr
  · cases hpr
  · cases hpr
    exact ⟨_, _, rfl⟩

theorem applyParagraphRange_ok (p : ParagraphRange) (c : ConversionContext) :
    ∃ adds, applyParagraphRange p c = { c with formatRequests := c.formatRequests ++ adds } ∧
      ∀ a ∈ adds, ∃ ps fs,
        a = Request.updateParagraphStyleReq p.startIndex p.endIndex (truthyTab c.tabId) ps fs := by
  unfold applyParagraphRange
  cases hn : p.namedStyleType with
  | none =>
    refine ⟨[], ?_, fun a ha => by cases ha⟩
    simp
  | some nst =>
    simp only
    split
    · cases hb : buildUpdateParagraphStyleRequest p.startIndex p.endIndex
        { namedStyleType := some nst } c.tabId with
      | none =>
        refine ⟨[], ?_, fun a ha => by cases ha⟩
        simp [hb]
      | some pr =>
        refine ⟨[pr.1], ?_, ?_⟩
        · simp [hb]
        · intro a ha
          rcases List.mem_singleton.mp ha with rfl
          exact buildUPS_shape _ _ _ _ pr hb
    · refine ⟨[], ?_, fun a ha => by cases ha⟩
      simp

theorem applyParagraphRanges_fold_ok (prs : List ParagraphRange) :
    ∀ c : ConversionContext, ∃ adds,
      prs.foldl (fun acc pr => applyParagraphRange pr acc) c =
        { c with formatRequests := c.formatRequests ++ adds } ∧
      ∀ a ∈ adds, ∃ p, p ∈ prs ∧ ∃ ps fs,
        a = Request.updateParagraphStyleReq p.startIndex p.endIndex (truthyTab c.tabId) ps fs := by
  induction prs with
  | nil =>
    intro c
    refine ⟨[], ?_, fun a ha => by cases ha⟩
    simp
  | cons pp ps ih =>
    intro c
    obtain ⟨adds1, h1, hs1⟩ := applyParagraphRange_ok pp c
    obtain ⟨adds2, h2, hs2⟩ := ih { c with formatRequests := c.formatRequests ++ adds1 }
    refine ⟨adds1 ++ adds2, ?_, ?_⟩
    · simp only [List.foldl_cons, h1, h2]
      simp [List.append_assoc]
    · intro a ha
      rcases List.mem_append.mp ha with hmem | hmem
      · obtain ⟨ts, fs, heq⟩ := hs1 a hmem
        exact ⟨pp, List.mem_cons_self pp ps, ts, fs, heq⟩
      · obtain ⟨p, hp, ts, fs, heq⟩ := hs2 a hmem
        exact ⟨p, List.mem_cons_of_mem pp hp, ts, fs, heq⟩

theorem applyHrRanges_fold_ok (hrs : List (Nat × Nat)) :
    ∀ c : ConversionContext,
      hrs.foldl applyHrRange c = { c with formatRequests := (c.formatRequests ++
        hrs.map (fun hr => Request.updateParagraphStyleReq hr.1 hr.2 (truthyTab c.tabId)
          { borderBottom := some hrBorderBottom } "borderBottom")) } := by
  induction hrs with
  | nil => intro c; simp
  | cons hh hs ih =>
    intro c
    simp only [List.foldl_cons, List.map_cons]
    rw [show applyHrRange c hh = { c with formatRequests := (c.formatRequests ++ [Request.updateParagraphStyleReq hh.1 hh.2 (truthyTab c.tabId) { borderBottom := some hrBorderBottom } "borderBottom"]) } from rfl]
    rw [ih]
    simp [List.append_assoc]

-- ### The descending stable sort of the list-item pass

/-- Non-increasing `startIndex` order (the order produced by
`sort((a, b) => b.startIndex - a.startIndex)`). -/
def descByStart (a b : PendingListItem) : Prop :=
  b.startIndex ≤ a.startIndex

theorem insertByStartDesc_perm (x : PendingListItem) (l : List PendingListItem) :
    List.Perm (insertByStartDesc x l) (x :: l) := by
  induction l with
  | nil => exact List.Perm.refl _
  | cons y ys ih =>
    unfold insertByStartDesc
    split
    · exact (ih.cons y).trans (List.Perm.swap x y ys)
    · exact List.Perm.refl _

theorem chain_insertByStartDesc (x : PendingListItem) (l : List PendingListItem)
    (h : List.Chain' descByStart l) :
    List.Chain' descByStart (insertByStartDesc x l) := by
  induction l with
  | nil => simp [insertByStartDesc, List.chain'_singleton]
  | cons y ys ih =>
    unfold insertByStartDesc
    split
    · next hle =>
      have htail : List.Chain' descByStart ys := h.tail
      have hrec := ih htail
      apply List.chain'_cons'.mpr
      refine ⟨?_, hrec⟩
      intro z hz
      cases ys with
      | nil =>
        simp [insertByStartDesc] at hz
        subst hz
        exact hle
      | cons w ws =>
        unfold insertByStartDesc at hz
        revert hz
        split
        · intro hz
          simp at hz
          subst hz
          exact (List.chain'_cons.mp h).1
        · intro hz
          simp at hz
          subst hz
          exact hle
    · next hgt =>
      apply List.chain'_cons.mpr
      refine ⟨?_, h⟩
      show y.startIndex ≤ x.startIndex
      omega

theorem sortByStartDesc_fold_perm (l : List PendingListItem) :
    ∀ acc, List.Perm (l.foldl (fun a x => insertByStartDesc x a) acc) (acc ++ l) := by
  induction l with
  | nil => intro acc; simp
  | cons x xs ih =>
    intro acc
    have h1 := ih (insertByStartDesc x acc)
    have h2 : List.Perm (insertByStartDesc x acc ++ xs) ((x :: acc) ++ xs) :=
      (insertByStartDesc_perm x acc).append_right xs
    have h3 : List.Perm ((x :: acc) ++ xs) (acc ++ x :: xs) := by
      show List.Perm (x :: (acc ++ xs)) (acc ++ x :: xs)
      exact List.perm_middle.symm
    simp only [List.foldl_cons]
    exact (h1.trans h2).trans h3

theorem sortByStartDesc_perm (l : List PendingListItem) :
    List.Perm (sortByStartDesc l) l := by
  have := sortByStartDesc_fold_perm l []
  simpa [sortByStartDesc] using this

theorem sortByStartDesc_fold_chain (l : List PendingListItem) :
    ∀ acc, List.Chain' descByStart acc →
      List.Chain' descByStart (l.foldl (fun a x => insertByStartDesc x a) acc) := by
  induction l with
  | nil => intro acc h; simpa using h
  | cons x xs ih =>
    intro acc h
    simp only [List.foldl_cons]
    exact ih _ (chain_insertByStartDesc x acc h)

theorem sortByStartDesc_chain (l : List PendingListItem) :
    List.Chain' descByStart (sortByStartDesc l) :=
  sortByStartDesc_fold_chain l [] List.chain'_nil

theorem mkBulletRequest_of_surviving (tab : Option String) {it : PendingListItem}
    (h : survivingListItem it = true) :
    ∃ e, it.endIndex = some e ∧ it.startIndex < e ∧
      mkBulletRequest tab it =
        [Request.createParagraphBulletsReq it.startIndex e (truthyTab tab) it.bulletPreset] := by
  unfold survivingListItem at h
  cases hE : it.endIndex with
  | none => rw [hE] at h; cases h
  | some e =>
    rw [hE] at h
    have hgt : e > it.startIndex := of_decide_eq_true h
    refine ⟨e, Eq.refl _, hgt, ?_⟩
    unfold mkBulletRequest
    rw [hE]
    show (if e > it.startIndex then
      [Request.createParagraphBulletsReq it.startIndex e (truthyTab tab) it.bulletPreset]
      else []) = _
    rw [if_pos hgt]

/-- The per-item view of a surviving item's bullet request. -/
def bulletOpOf (tab : Option String) (it : PendingListItem) : Request :=
  Request.createParagraphBulletsReq it.startIndex (it.endIndex.getD 0) (truthyTab tab)
    it.bulletPreset

theorem bulletFlatten_eq_map (tab : Option String) (l : List PendingListItem)
    (h : ∀ it ∈ l, survivingListItem it = true) :
    (l.map (mkBulletRequest tab)).flatten = l.map (bulletOpOf tab) := by
  induction l with
  | nil => rfl
  | cons x xs ih =>
    obtain ⟨e, hE, _, hmk⟩ := mkBulletRequest_of_surviving tab (h x (List.mem_cons_self x xs))
    simp only [List.map_cons, List.flatten_cons, hmk]
    rw [ih (fun it hit => h it (List.mem_cons_of_mem x hit))]
    simp [bulletOpOf, hE]

/-- The bullet-assignment requests appended by the finalizer's list-item
pass, for a given context. -/
def bulletRequestsOf (c : ConversionContext) : List Request :=
  ((sortByStartDesc (c.pendingListItems.filter survivingListItem)).map
    (mkBulletRequest c.tabId)).flatten

/-- A non-bullet style request appended by the first three finalization
passes, tied back to its source range. -/
def NonBulletAdd (c : ConversionContext) (a : Request) : Prop :=
  (∃ tr, tr ∈ c.textRanges ∧ ∃ ts fs,
    a = Request.updateTextStyleReq tr.startIndex tr.endIndex (truthyTab c.tabId) ts fs) ∨
  (∃ p, p ∈ c.paragraphRanges ∧ ∃ ps fs,
    a = Request.updateParagraphStyleReq p.startIndex p.endIndex (truthyTab c.tabId) ps fs) ∨
  (∃ hr, hr ∈ c.hrRanges ∧
    a = Request.updateParagraphStyleReq hr.1 hr.2 (truthyTab c.tabId)
      { borderBottom := some hrBorderBottom } "borderBottom")

/-- Unfolding `finalizeFormatting` through a successful first loop. -/
theorem finalizeFormatting_of_loop {c c1 : ConversionContext}
    (h : applyTextRangesLoop c.textRanges c = Except.ok c1) :
    finalizeFormatting c = Except.ok (finalizeListItems
      ((c1.paragraphRanges.foldl (fun acc pr => applyParagraphRange pr acc) c1).hrRanges.foldl
        applyHrRange (c1.paragraphRanges.foldl (fun acc pr => applyParagraphRange pr acc) c1))) := by
  unfold finalizeFormatting
  rw [h]

theorem applyParagraphRanges_fold_ctx (c : ConversionContext) :
    ∃ adds, c.paragraphRanges.foldl (fun acc pr => applyParagraphRange pr acc) c =
      { c with formatRequests := c.formatRequests ++ adds } ∧
      ∀ a ∈ adds, ∃ p, p ∈ c.paragraphRanges ∧ ∃ ps fs,
        a = Request.updateParagraphStyleReq p.startIndex p.endIndex (truthyTab c.tabId) ps fs :=
  applyParagraphRanges_fold_ok c.paragraphRanges c

theorem applyHrRanges_fold_ctx (c : ConversionContext) :
    c.hrRanges.foldl applyHrRange c = { c with formatRequests := (c.formatRequests ++
      c.hrRanges.map (fun hr => Request.updateParagraphStyleReq hr.1 hr.2 (truthyTab c.tabId)
        { borderBottom := some hrBorderBottom } "borderBottom")) } :=
  applyHrRanges_fold_ok c.hrRanges c

theorem finalizeListItems_eq (c : ConversionContext) :
    finalizeListItems c =
      { c with formatRequests := c.formatRequests ++ bulletRequestsOf c } := rfl

/-- `finalizeFormatting` always succeeds; it only appends format requests —
first the style, paragraph and border requests (in that order), then the
bullet-assignment requests. -/
theorem finalizeFormatting_ok (c : ConversionContext) :
    ∃ c2 nonBullet,
      finalizeFormatting c = Except.ok c2 ∧
      c2.insertRequests = c.insertRequests ∧
      c2.currentIndex = c.currentIndex ∧
      c2.pendingListItems = c.pendingListItems ∧
      c2.tabId = c.tabId ∧
      c2.formatRequests = c.formatRequests ++ nonBullet ++ bulletRequestsOf c ∧
      ∀ a ∈ nonBullet, NonBulletAdd c a := by
  obtain ⟨addsA, hA, hsA⟩ := applyTextRangesLoop_ok c.textRanges c
  obtain ⟨addsB, hB, hsB⟩ :=
    applyParagraphRanges_fold_ctx { c with formatRequests := c.formatRequests ++ addsA }
  have hfin := finalizeFormatting_of_loop hA
  rw [hB] at hfin
  rw [applyHrRanges_fold_ctx _] at hfin
  rw [finalizeListItems_eq _] at hfin
  refine ⟨_, addsA ++ addsB ++ c.hrRanges.map
      (fun hr => Request.updateParagraphStyleReq hr.1 hr.2 (truthyTab c.tabId)
        { borderBottom := some hrBorderBottom } "borderBottom"), hfin, ?_, ?_, ?_, ?_, ?_, ?_⟩
  · rfl
  · rfl
  · rfl
  · rfl
  · show (((((c.formatRequests ++ addsA) ++ addsB) ++ _) ++ _ : List Request)) = _
    simp only [List.append_assoc]
    rfl
  · intro a ha
    rcases List.mem_append.mp ha with hab | hmc
    · rcases List.mem_append.mp hab with hma | hmb
      · obtain ⟨tr, htr, ts, fs, heq⟩ := hsA a hma
        exact Or.inl ⟨tr, htr, ts, fs, heq⟩
      · obtain ⟨p, hp, ps, fs, heq⟩ := hsB a hmb
        exact Or.inr (Or.inl ⟨p, hp, ps, fs, heq⟩)
    · obtain ⟨hr, hhr, heq⟩ := List.mem_map.mp hmc
      exact Or.inr (Or.inr ⟨hr, hhr, heq.symm⟩)

/-- Characterization of a successful conversion: the pass succeeds with an
invariant-satisfying context, and the returned operations are the
insertions, then the non-bullet style operations, then the bullet
assignments. -/
theorem convertTokens_ok_master {ts : TokenList} {s : Nat} {tab : Option String}
    {ops : List Request} (h : convertTokensToRequests ts s tab = Except.ok ops) :
    ∃ ctx nonBullet, processTokenList ts (initialContext s tab) = Except.ok ctx ∧
      Inv s ctx ∧ ctx.tabId = tab ∧
      ops = ctx.insertRequests ++ nonBullet ++ bulletRequestsOf ctx ∧
      (∀ a ∈ nonBullet, NonBulletAdd ctx a) := by
  cases hp : processTokenList ts (initialContext s tab) with
  | error e0 =>
    have hconv : convertTokensToRequests ts s tab =
        Except.error (wrapConversionError e0) := by
      unfold convertTokensToRequests
      rw [hp]
    rw [hconv] at h
    cases h
  | ok ctx =>
    obtain ⟨c2, nonBullet, hfin, hins, hci, hpli, htab, hfmt, hnb⟩ := finalizeFormatting_ok ctx
    have hconv := convertTokens_eq_of_pass hp hfin
    rw [hconv] at h
    have hops : c2.insertRequests ++ c2.formatRequests = ops := (Except.ok.injEq _ _).mp h
    obtain ⟨hinv, hev⟩ := pass_ok_inv hp
    have htabctx : ctx.tabId = tab := by
      have := hev.tabEq
      simpa [initialContext] using this
    refine ⟨ctx, nonBullet, rfl, hinv, htabctx, ?_, hnb⟩
    rw [← hops, hins, hfmt, hinv.fmtnil]
    simp

/-- A failing conversion only ever reports the caller-input list-item
error. -/
theorem convertTokens_error_master {ts : TokenList} {s : Nat} {tab : Option String}
    {e : Exc} (h : convertTokensToRequests ts s tab = Except.error e) :
    e = Exc.mce listItemMsg := by
  cases hp : processTokenList ts (initialContext s tab) with
  | ok ctx =>
    obtain ⟨c2, nb, hfin, _⟩ := finalizeFormatting_ok ctx
    have hconv := convertTokens_eq_of_pass hp hfin
    rw [hconv] at h
    cases h
  | error e0 =>
    have he0 : e0 = Exc.mce listItemMsg := pass_error_msg hp
    have hconv : convertTokensToRequests ts s tab =
        Except.error (wrapConversionError e0) := by
      unfold convertTokensToRequests
      rw [hp]
    rw [hconv] at h
    have h2 : wrapConversionError e0 = e := ((Except.error.injEq _ _).mp h)
    rw [he0] at h2
    rw [← h2]
    rfl

/-- Every operation of a successful conversion addresses offsets inside the
written window `[s, finalOffset]`. -/
theorem convert_ops_within {ts : TokenList} {s : Nat} {tab : Option String}
    {ops : List Request} (h : convertTokensToRequests ts s tab = Except.ok ops) :
    ∃ ctx, processTokenList ts (initialContext s tab) = Except.ok ctx ∧ Inv s ctx ∧
      ∀ r ∈ ops, opWithin s ctx.currentIndex r = true := by
  obtain ⟨ctx, nonBullet, hp, hinv, htab, hops, hnb⟩ := convertTokens_ok_master h
  refine ⟨ctx, hp, hinv, ?_⟩
  intro r hr
  rw [hops] at hr
  rcases List.mem_append.mp hr with hr2 | hbul
  · rcases List.mem_append.mp hr2 with hins | hnbm
    · obtain ⟨i, tb, t, heq, hlo, hhi⟩ := wellPlaced_bounds s ctx.insertRequests hinv.placed r hins
      subst heq
      simp only [opWithin]
      rw [hinv.idx]
      simp [hlo]
      omega
    · rcases hnb r hnbm with ⟨tr, htr, ts', fs', heq⟩ | ⟨p, hp', ps', fs', heq⟩ | ⟨hr', hhr', heq⟩
      · subst heq
        obtain ⟨h1, h2, h3⟩ := hinv.tr tr htr
        simp only [opWithin]
        simp [h1, h3]
        omega
      · subst heq
        obtain ⟨h1, h2, h3⟩ := hinv.pr p hp'
        simp only [opWithin]
        simp [h1, h2, h3]
      · subst heq
        obtain ⟨h1, h2, h3⟩ := hinv.hrr hr' hhr'
        simp only [opWithin]
        simp [h1, h3]
        omega
  · simp only [bulletRequestsOf] at hbul
    obtain ⟨rs, hrs, hrmem⟩ := List.mem_flatten.mp hbul
    obtain ⟨it, hit, hmk⟩ := List.mem_map.mp hrs
    have hitMem : it ∈ ctx.pendingListItems.filter survivingListItem :=
      (sortByStartDesc_perm _).mem_iff.mp hit
    have hitPli : it ∈ ctx.pendingListItems := List.mem_of_mem_filter hitMem
    have hitSurv : survivingListItem it = true := List.of_mem_filter hitMem
    obtain ⟨e2, hE, hgt, hmk2⟩ := mkBulletRequest_of_surviving ctx.tabId hitSurv
    rw [← hmk, hmk2] at hrmem
    rcases List.mem_singleton.mp hrmem with rfl
    obtain ⟨h1, h2, h3⟩ := hinv.pli it hitPli
    obtain ⟨h4, h5⟩ := h3 e2 hE
    simp only [opWithin]
    simp [h1]
    omega

-- ### Concrete scenario evaluations (stepwise, for the claim scenarios)

def ctxBold0 : ConversionContext := initialContext 1 none

def ctxBold1 : ConversionContext :=
  { currentIndex := 1
    insertRequests := []
    formatRequests := []
    textRanges := []
    formattingStack := []
    listStack := []
    paragraphRanges := []
    pendingListItems := []
    openListItemStack := []
    hrRanges := []
    tabId := none
    currentParagraphStart := (some 1)
    currentHeadingLevel := none }

theorem ctxBolds1 : processToken (Token.mk "paragraph_open" "p" "" [] TokenList.nil) ctxBold0 = Except.ok ctxBold1 := by
  rfl

def ctxBold2 : ConversionContext :=
  { currentIndex := 10
    insertRequests := [Request.insertTextReq 1 none "bold text"]
    formatRequests := []
    textRanges := [(⟨1, 10, (⟨(some true), none, none, none, none⟩ : FormattingState)⟩ : TextRange)]
    formattingStack := []
    listStack := []
    paragraphRanges := []
    pendingListItems := []
    openListItemStack := []
    hrRanges := []
    tabId := none
    currentParagraphStart := (some 1)
    currentHeadingLevel := none }

theorem ctxBolds2 : processToken (Token.mk "inline" "" "**bold text**" [] (TokenList.cons (Token.mk "strong_open" "strong" "" [] TokenList.nil) (TokenList.cons (Token.mk "text" "" "bold text" [] TokenList.nil) (TokenList.cons (Token.mk "strong_close" "strong" "" [] TokenList.nil) TokenList.nil)))) ctxBold1 = Except.ok ctxBold2 := by
  rfl

def ctxBold3 : ConversionContext :=
  { currentIndex := 12
    insertRequests := [Request.insertTextReq 1 none "bold text",
      Request.insertTextReq 10 none "\n\n"]
    formatRequests := []
    textRanges := [(⟨1, 10, (⟨(some true), none, none, none, none⟩ : FormattingState)⟩ : TextRange)]
    formattingStack := []
    listStack := []
    paragraphRanges := []
    pendingListItems := []
    openListItemStack := []
    hrRanges := []
    tabId := none
    currentParagraphStart := none
    currentHeadingLevel := none }

theorem ctxBolds3 : processToken (Token.mk "paragraph_close" "p" "" [] TokenList.nil) ctxBold2 = Except.ok ctxBold3 := by
  rfl

theorem ctxBoldpass : processTokenList tokensBoldText ctxBold0 = Except.ok ctxBold3 := by
  have h0 : tokensBoldText = (TokenList.cons (Token.mk "paragraph_open" "p" "" [] TokenList.nil) (TokenList.cons (Token.mk "inline" "" "**bold text**" [] (TokenList.cons (Token.mk "strong_open" "strong" "" [] TokenList.nil) (TokenList.cons (Token.mk "text" "" "bold text" [] TokenList.nil) (TokenList.cons (Token.mk "strong_close" "strong" "" [] TokenList.nil) TokenList.nil)))) (TokenList.cons (Token.mk "paragraph_close" "p" "" [] TokenList.nil) TokenList.nil))) := rfl
  rw [h0, processTokenList_cons_ok ctxBolds1,
    processTokenList_cons_ok ctxBolds2,
    processTokenList_cons_ok ctxBolds3]
  rfl

def ctxBoldF : ConversionContext :=
  { currentIndex := 12
    insertRequests := [Request.insertTextReq 1 none "bold text",
      Request.insertTextReq 10 none "\n\n"]
    formatRequests := [Request.updateTextStyleReq 1 10 none (⟨(some true), none, none, none, none, none, none, none, none⟩ : TextStyle) "bold"]
    textRanges := [(⟨1, 10, (⟨(some true), none, none, none, none⟩ : FormattingState)⟩ : TextRange)]
    formattingStack := []
    listStack := []
    paragraphRanges := []
    pendingListItems := []
    openListItemStack := []
    hrRanges := []
    tabId := none
    currentParagraphStart := none
    currentHeadingLevel := none }

theorem ctxBoldfin : finalizeFormatting ctxBold3 = Except.ok ctxBoldF := by
  rfl

theorem ctxBoldconv : convertTokensToRequests tokensBoldText 1 none =
    Except.ok [Request.insertTextReq 1 none "bold text",
      Request.insertTextReq 10 none "\n\n",
      Request.updateTextStyleReq 1 10 none (⟨(some true), none, none, none, none, none, none, none, none⟩ : TextStyle) "bold"] := by
  rw [convertTokens_eq_of_pass ctxBoldpass ctxBoldfin]
  rfl
def ctxTask0 : ConversionContext := initialContext 1 none

def ctxTask1 : ConversionContext :=
  { currentIndex := 1
    insertRequests := []
    formatRequests := []
    textRanges := []
    formattingStack := []
    listStack := [(⟨ListType.bullet, 0⟩ : ListState)]
    paragraphRanges := []
    pendingListItems := []
    openListItemStack := []
    hrRanges := []
    tabId := none
    currentParagraphStart := none
    currentHeadingLevel := none }

theorem ctxTasks1 : processToken (Token.mk "bullet_list_open" "ul" "" [] TokenList.nil) ctxTask0 = Except.ok ctxTask1 := by
  rfl

def ctxTask2 : ConversionContext :=
  { currentIndex := 1
    insertRequests := []
    formatRequests := []
    textRanges := []
    formattingStack := []
    listStack := [(⟨ListType.bullet, 0⟩ : ListState)]
    paragraphRanges := []
    pendingListItems := [(⟨1, none, 0, "BULLET_DISC_CIRCLE_SQUARE", false⟩ : PendingListItem)]
    openListItemStack := [0]
    hrRanges := []
    tabId := none
    currentParagraphStart := none
    currentHeadingLevel := none }

theorem ctxTasks2 : processToken (Token.mk "list_item_open" "li" "" [] TokenList.nil) ctxTask1 = Except.ok ctxTask2 := by
  rfl

def ctxTask3 : ConversionContext :=
  { currentIndex := 1
    insertRequests := []
    formatRequests := []
    textRanges := []
    formattingStack := []
    listStack := [(⟨ListType.bullet, 0⟩ : ListState)]
    paragraphRanges := []
    pendingListItems := [(⟨1, none, 0, "BULLET_DISC_CIRCLE_SQUARE", false⟩ : PendingListItem)]
    openListItemStack := [0]
    hrRanges := []
    tabId := none
    currentParagraphStart := none
    currentHeadingLevel := none }

theorem ctxTasks3 : processToken (Token.mk "paragraph_open" "p" "" [] TokenList.nil) ctxTask2 = Except.ok ctxTask3 := by
  rfl

def ctxTask4 : ConversionContext :=
  { currentIndex := 5
    insertRequests := [Request.insertTextReq 1 none "done"]
    formatRequests := []
    textRanges := []
    formattingStack := []
    listStack := [(⟨ListType.bullet, 0⟩ : ListState)]
    paragraphRanges := []
    pendingListItems := [(⟨1, none, 0, "BULLET_CHECKBOX", true⟩ : PendingListItem)]
    openListItemStack := [0]
    hrRanges := []
    tabId := none
    currentParagraphStart := none
    currentHeadingLevel := none }

theorem ctxTasks4 : processToken (Token.mk "inline" "" "[x] done" [] (TokenList.cons (Token.mk "text" "" "[x] done" [] TokenList.nil) TokenList.nil)) ctxTask3 = Except.ok ctxTask4 := by
  rfl

def ctxTask5 : ConversionContext :=
  { currentIndex := 6
    insertRequests := [Request.insertTextReq 1 none "done",
      Request.insertTextReq 5 none "\n"]
    formatRequests := []
    textRanges := []
    formattingStack := []
    listStack := [(⟨ListType.bullet, 0⟩ : ListState)]
    paragraphRanges := []
    pendingListItems := [(⟨1, (some 5), 0, "BULLET_CHECKBOX", true⟩ : PendingListItem)]
    openListItemStack := [0]
    hrRanges := []
    tabId := none
    currentParagraphStart := none
    currentHeadingLevel := none }

theorem ctxTasks5 : processToken (Token.mk "paragraph_close" "p" "" [] TokenList.nil) ctxTask4 = Except.ok ctxTask5 := by
  rfl

def ctxTask6 : ConversionContext :=
  { currentIndex := 6
    insertRequests := [Request.insertTextReq 1 none "done",
      Request.insertTextReq 5 none "\n"]
    formatRequests := []
    textRanges := []
    formattingStack := []
    listStack := [(⟨ListType.bullet, 0⟩ : ListState)]
    paragraphRanges := []
    pendingListItems := [(⟨1, (some 5), 0, "BULLET_CHECKBOX", true⟩ : PendingListItem)]
    openListItemStack := []
    hrRanges := []
    tabId := none
    currentParagraphStart := none
    currentHeadingLevel := none }

theorem ctxTasks6 : processToken (Token.mk "list_item_close" "li" "" [] TokenList.nil) ctxTask5 = Except.ok ctxTask6 := by
  rfl

def ctxTask7 : ConversionContext :=
  { currentIndex := 6
    insertRequests := [Request.insertTextReq 1 none "done",
      Request.insertTextReq 5 none "\n"]
    formatRequests := []
    textRanges := []
    formattingStack := []
    listStack := [(⟨ListType.bullet, 0⟩ : ListState)]
    paragraphRanges := []
    pendingListItems := [(⟨1, (some 5), 0, "BULLET_CHECKBOX", true⟩ : PendingListItem),
      (⟨6, none, 0, "BULLET_DISC_CIRCLE_SQUARE", false⟩ : PendingListItem)]
    openListItemStack := [1]
    hrRanges := []
    tabId := none
    currentParagraphStart := none
    currentHeadingLevel := none }

theorem ctxTasks7 : processToken (Token.mk "list_item_open" "li" "" [] TokenList.nil) ctxTask6 = Except.ok ctxTask7 := by
  rfl

def ctxTask8 : ConversionContext :=
  { currentIndex := 6
    insertRequests := [Request.insertTextReq 1 none "done",
      Request.insertTextReq 5 none "\n"]
    formatRequests := []
    textRanges := []
    formattingStack := []
    listStack := [(⟨ListType.bullet, 0⟩ : ListState)]
    paragraphRanges := []
    pendingListItems := [(⟨1, (some 5), 0, "BULLET_CHECKBOX", true⟩ : PendingListItem),
      (⟨6, none, 0, "BULLET_DISC_CIRCLE_SQUARE", false⟩ : PendingListItem)]
    openListItemStack := [1]
    hrRanges := []
    tabId := none
    currentParagraphStart := none
    currentHeadingLevel := none }

theorem ctxTasks8 : processToken (Token.mk "paragraph_open" "p" "" [] TokenList.nil) ctxTask7 = Except.ok ctxTask8 := by
  rfl

def ctxTask9 : ConversionContext :=
  { currentIndex := 10
    insertRequests := [Request.insertTextReq 1 none "done",
      Request.insertTextReq 5 none "\n",
      Request.insertTextReq 6 none "todo"]
    formatRequests := []
    textRanges := []
    formattingStack := []
    listStack := [(⟨ListType.bullet, 0⟩ : ListState)]
    paragraphRanges := []
    pendingListItems := [(⟨1, (some 5), 0, "BULLET_CHECKBOX", true⟩ : PendingListItem),
      (⟨6, none, 0, "BULLET_CHECKBOX", true⟩ : PendingListItem)]
    openListItemStack := [1]
    hrRanges := []
    tabId := none
    currentParagraphStart := none
    currentHeadingLevel := none }

theorem ctxTasks9 : processToken (Token.mk "inline" "" "[ ] todo" [] (TokenList.cons (Token.mk "text" "" "[ ] todo" [] TokenList.nil) TokenList.nil)) ctxTask8 = Except.ok ctxTask9 := by
  rfl

def ctxTask10 : ConversionContext :=
  { currentIndex := 11
    insertRequests := [Request.insertTextReq 1 none "done",
      Request.insertTextReq 5 none "\n",
      Request.insertTextReq 6 none "todo",
      Request.insertTextReq 10 none "\n"]
    formatRequests := []
    textRanges := []
    formattingStack := []
    listStack := [(⟨ListType.bullet, 0⟩ : ListState)]
    paragraphRanges := []
    pendingListItems := [(⟨1, (some 5), 0, "BULLET_CHECKBOX", true⟩ : PendingListItem),
      (⟨6, (some 10), 0, "BULLET_CHECKBOX", true⟩ : PendingListItem)]
    openListItemStack := [1]
    hrRanges := []
    tabId := none
    currentParagraphStart := none
    currentHeadingLevel := none }

theorem ctxTasks10 : processToken (Token.mk "paragraph_close" "p" "" [] TokenList.nil) ctxTask9 = Except.ok ctxTask10 := by
  rfl

def ctxTask11 : ConversionContext :=
  { currentIndex := 11
    insertRequests := [Request.insertTextReq 1 none "done",
      Request.insertTextReq 5 none "\n",
      Request.insertTextReq 6 none "todo",
      Request.insertTextReq 10 none "\n"]
    formatRequests := []
    textRanges := []
    formattingStack := []
    listStack := [(⟨ListType.bullet, 0⟩ : ListState)]
    paragraphRanges := []
    pendingListItems := [(⟨1, (some 5), 0, "BULLET_CHECKBOX", true⟩ : PendingListItem),
      (⟨6, (some 10), 0, "BULLET_CHECKBOX", true⟩ : PendingListItem)]
    openListItemStack := []
    hrRanges := []
    tabId := none
    currentParagraphStart := none
    currentHeadingLevel := none }

theorem ctxTasks11 : processToken (Token.mk "list_item_close" "li" "" [] TokenList.nil) ctxTask10 = Except.ok ctxTask11 := by
  rfl

def ctxTask12 : ConversionContext :=
  { currentIndex := 11
    insertRequests := [Request.insertTextReq 1 none "done",
      Request.insertTextReq 5 none "\n",
      Request.insertTextReq 6 none "todo",
      Request.insertTextReq 10 none "\n"]
    formatRequests := []
    textRanges := []
    formattingStack := []
    listStack := []
    paragraphRanges := []
    pendingListItems := [(⟨1, (some 5), 0, "BULLET_CHECKBOX", true⟩ : PendingListItem),
      (⟨6, (some 10), 0, "BULLET_CHECKBOX", true⟩ : PendingListItem)]
    openListItemStack := []
    hrRanges := []
    tabId := none
    currentParagraphStart := none
    currentHeadingLevel := none }

theorem ctxTasks12 : processToken (Token.mk "bullet_list_close" "ul" "" [] TokenList.nil) ctxTask11 = Except.ok ctxTask12 := by
  rfl

theorem ctxTaskpass : processTokenList tokensTaskList ctxTask0 = Except.ok ctxTask12 := by
  have h0 : tokensTaskList = (TokenList.cons (Token.mk "bullet_list_open" "ul" "" [] TokenList.nil) (TokenList.cons (Token.mk "list_item_open" "li" "" [] TokenList.nil) (TokenList.cons (Token.mk "paragraph_open" "p" "" [] TokenList.nil) (TokenList.cons (Token.mk "inline" "" "[x] done" [] (TokenList.cons (Token.mk "text" "" "[x] done" [] TokenList.nil) TokenList.nil)) (TokenList.cons (Token.mk "paragraph_close" "p" "" [] TokenList.nil) (TokenList.cons (Token.mk "list_item_close" "li" "" [] TokenList.nil) (TokenList.cons (Token.mk "list_item_open" "li" "" [] TokenList.nil) (TokenList.cons (Token.mk "paragraph_open" "p" "" [] TokenList.nil) (TokenList.cons (Token.mk "inline" "" "[ ] todo" [] (TokenList.cons (Token.mk "text" "" "[ ] todo" [] TokenList.nil) TokenList.nil)) (TokenList.cons (Token.mk "paragraph_close" "p" "" [] TokenList.nil) (TokenList.cons (Token.mk "list_item_close" "li" "" [] TokenList.nil) (TokenList.cons (Token.mk "bullet_list_close" "ul" "" [] TokenList.nil) TokenList.nil)))))))))))) := rfl
  rw [h0, processTokenList_cons_ok ctxTasks1,
    processTokenList_cons_ok ctxTasks2,
    processTokenList_cons_ok ctxTasks3,
    processTokenList_cons_ok ctxTasks4,
    processTokenList_cons_ok ctxTasks5,
    processTokenList_cons_ok ctxTasks6,
    processTokenList_cons_ok ctxTasks7,
    processTokenList_cons_ok ctxTasks8,
    processTokenList_cons_ok ctxTasks9,
    processTokenList_cons_ok ctxTasks10,
    processTokenList_cons_ok ctxTasks11,
    processTokenList_cons_ok ctxTasks12]
  rfl

def ctxTaskF : ConversionContext :=
  { currentIndex := 11
    insertRequests := [Request.insertTextReq 1 none "done",
      Request.insertTextReq 5 none "\n",
      Request.insertTextReq 6 none "todo",
      Request.insertTextReq 10 none "\n"]
    formatRequests := [Request.createParagraphBulletsReq 6 10 none "BULLET_CHECKBOX",
      Request.createParagraphBulletsReq 1 5 none "BULLET_CHECKBOX"]
    textRanges := []
    formattingStack := []
    listStack := []
    paragraphRanges := []
    pendingListItems := [(⟨1, (some 5), 0, "BULLET_CHECKBOX", true⟩ : PendingListItem),
      (⟨6, (some 10), 0, "BULLET_CHECKBOX", true⟩ : PendingListItem)]
    openListItemStack := []
    hrRanges := []
    tabId := none
    currentParagraphStart := none
    currentHeadingLevel := none }

theorem ctxTaskfin : finalizeFormatting ctxTask12 = Except.ok ctxTaskF := by
  rfl

theorem ctxTaskconv : convertTokensToRequests tokensTaskList 1 none =
    Except.ok [Request.insertTextReq 1 none "done",
      Request.insertTextReq 5 none "\n",
      Request.insertTextReq 6 none "todo",
      Request.insertTextReq 10 none "\n",
      Request.createParagraphBulletsReq 6 10 none "BULLET_CHECKBOX",
      Request.createParagraphBulletsReq 1 5 none "BULLET_CHECKBOX"] := by
  rw [convertTokens_eq_of_pass ctxTaskpass ctxTaskfin]
  rfl
def ctxNested0 : ConversionContext := initialContext 1 none

def ctxNested1 : ConversionContext :=
  { currentIndex := 1
    insertRequests := []
    formatRequests := []
    textRanges := []
    formattingStack := []
    listStack := [(⟨ListType.bullet, 0⟩ : ListState)]
    paragraphRanges := []
    pendingListItems := []
    openListItemStack := []
    hrRanges := []
    tabId := none
    currentParagraphStart := none
    currentHeadingLevel := none }

theorem ctxNesteds1 : processToken (Token.mk "bullet_list_open" "ul" "" [] TokenList.nil) ctxNested0 = Except.ok ctxNested1 := by
  rfl

def ctxNested2 : ConversionContext :=
  { currentIndex := 1
    insertRequests := []
    formatRequests := []
    textRanges := []
    formattingStack := []
    listStack := [(⟨ListType.bullet, 0⟩ : ListState)]
    paragraphRanges := []
    pendingListItems := [(⟨1, none, 0, "BULLET_DISC_CIRCLE_SQUARE", false⟩ : PendingListItem)]
    openListItemStack := [0]
    hrRanges := []
    tabId := none
    currentParagraphStart := none
    currentHeadingLevel := none }

theorem ctxNesteds2 : processToken (Token.mk "list_item_open" "li" "" [] TokenList.nil) ctxNested1 = Except.ok ctxNested2 := by
  rfl

def ctxNested3 : ConversionContext :=
  { currentIndex := 1
    insertRequests := []
    formatRequests := []
    textRanges := []
    formattingStack := []
    listStack := [(⟨ListType.bullet, 0⟩ : ListState),
      (⟨ListType.bullet, 1⟩ : ListState)]
    paragraphRanges := []
    pendingListItems := [(⟨1, none, 0, "BULLET_DISC_CIRCLE_SQUARE", false⟩ : PendingListItem)]
    openListItemStack := [0]
    hrRanges := []
    tabId := none
    currentParagraphStart := none
    currentHeadingLevel := none }

theorem ctxNesteds3 : processToken (Token.mk "bullet_list_open" "ul" "" [] TokenList.nil) ctxNested2 = Except.ok ctxNested3 := by
  rfl

def ctxNested4 : ConversionContext :=
  { currentIndex := 2
    insertRequests := [Request.insertTextReq 1 none "\t"]
    formatRequests := []
    textRanges := []
    formattingStack := []
    listStack := [(⟨ListType.bullet, 0⟩ : ListState),
      (⟨ListType.bullet, 1⟩ : ListState)]
    paragraphRanges := []
    pendingListItems := [(⟨1, none, 0, "BULLET_DISC_CIRCLE_SQUARE", false⟩ : PendingListItem),
      (⟨1, none, 1, "BULLET_DISC_CIRCLE_SQUARE", false⟩ : PendingListItem)]
    openListItemStack := [0,
      1]
    hrRanges := []
    tabId := none
    currentParagraphStart := none
    currentHeadingLevel := none }

theorem ctxNesteds4 : processToken (Token.mk "list_item_open" "li" "" [] TokenList.nil) ctxNested3 = Except.ok ctxNested4 := by
  rfl

def ctxNested5 : ConversionContext :=
  { currentIndex := 2
    insertRequests := [Request.insertTextReq 1 none "\t"]
    formatRequests := []
    textRanges := []
    formattingStack := []
    listStack := [(⟨ListType.bullet, 0⟩ : ListState),
      (⟨ListType.bullet, 1⟩ : ListState)]
    paragraphRanges := []
    pendingListItems := [(⟨1, none, 0, "BULLET_DISC_CIRCLE_SQUARE", false⟩ : PendingListItem),
      (⟨1, none, 1, "BULLET_DISC_CIRCLE_SQUARE", false⟩ : PendingListItem)]
    openListItemStack := [0,
      1]
    hrRanges := []
    tabId := none
    currentParagraphStart := none
    currentHeadingLevel := none }

theorem ctxNesteds5 : processToken (Token.mk "paragraph_open" "p" "" [] TokenList.nil) ctxNested4 = Except.ok ctxNested5 := by
  rfl

def ctxNested6 : ConversionContext :=
  { currentIndex := 3
    insertRequests := [Request.insertTextReq 1 none "\t",
      Request.insertTextReq 2 none "a"]
    formatRequests := []
    textRanges := []
    formattingStack := []
    listStack := [(⟨ListType.bullet, 0⟩ : ListState),
      (⟨ListType.bullet, 1⟩ : ListState)]
    paragraphRanges := []
    pendingListItems := [(⟨1, none, 0, "BULLET_DISC_CIRCLE_SQUARE", false⟩ : PendingListItem),
      (⟨1, none, 1, "BULLET_DISC_CIRCLE_SQUARE", true⟩ : PendingListItem)]
    openListItemStack := [0,
      1]
    hrRanges := []
    tabId := none
    currentParagraphStart := none
    currentHeadingLevel := none }

theorem ctxNesteds6 : processToken (Token.mk "inline" "" "a" [] (TokenList.cons (Token.mk "text" "" "a" [] TokenList.nil) TokenList.nil)) ctxNested5 = Except.ok ctxNested6 := by
  rfl

def ctxNested7 : ConversionContext :=
  { currentIndex := 4
    insertRequests := [Request.insertTextReq 1 none "\t",
      Request.insertTextReq 2 none "a",
      Request.insertTextReq 3 none "\n"]
    formatRequests := []
    textRanges := []
    formattingStack := []
    listStack := [(⟨ListType.bullet, 0⟩ : ListState),
      (⟨ListType.bullet, 1⟩ : ListState)]
    paragraphRanges := []
    pendingListItems := [(⟨1, none, 0, "BULLET_DISC_CIRCLE_SQUARE", false⟩ : PendingListItem),
      (⟨1, (some 3), 1, "BULLET_DISC_CIRCLE_SQUARE", true⟩ : PendingListItem)]
    openListItemStack := [0,
      1]
    hrRanges := []
    tabId := none
    currentParagraphStart := none
    currentHeadingLevel := none }

theorem ctxNesteds7 : processToken (Token.mk "paragraph_close" "p" "" [] TokenList.nil) ctxNested6 = Except.ok ctxNested7 := by
  rfl

def ctxNested8 : ConversionContext :=
  { currentIndex := 4
    insertRequests := [Request.insertTextReq 1 none "\t",
      Request.insertTextReq 2 none "a",
      Request.insertTextReq 3 none "\n"]
    formatRequests := []
    textRanges := []
    formattingStack := []
    listStack := [(⟨ListType.bullet, 0⟩ : ListState),
      (⟨ListType.bullet, 1⟩ : ListState)]
    paragraphRanges := []
    pendingListItems := [(⟨1, none, 0, "BULLET_DISC_CIRCLE_SQUARE", false⟩ : PendingListItem),
      (⟨1, (some 3), 1, "BULLET_DISC_CIRCLE_SQUARE", true⟩ : PendingListItem)]
    openListItemStack := [0]
    hrRanges := []
    tabId := none
    currentParagraphStart := none
    currentHeadingLevel := none }

theorem ctxNesteds8 : processToken (Token.mk "list_item_close" "li" "" [] TokenList.nil) ctxNested7 = Except.ok ctxNested8 := by
  rfl

def ctxNested9 : ConversionContext :=
  { currentIndex := 4
    insertRequests := [Request.insertTextReq 1 none "\t",
      Request.insertTextReq 2 none "a",
      Request.insertTextReq 3 none "\n"]
    formatRequests := []
    textRanges := []
    formattingStack := []
    listStack := [(⟨ListType.bullet, 0⟩ : ListState)]
    paragraphRanges := []
    pendingListItems := [(⟨1, none, 0, "BULLET_DISC_CIRCLE_SQUARE", false⟩ : PendingListItem),
      (⟨1, (some 3), 1, "BULLET_DISC_CIRCLE_SQUARE", true⟩ : PendingListItem)]
    openListItemStack := [0]
    hrRanges := []
    tabId := none
    currentParagraphStart := none
    currentHeadingLevel := none }

theorem ctxNesteds9 : processToken (Token.mk "bullet_list_close" "ul" "" [] TokenList.nil) ctxNested8 = Except.ok ctxNested9 := by
  rfl

def ctxNested10 : ConversionContext :=
  { currentIndex := 4
    insertRequests := [Request.insertTextReq 1 none "\t",
      Request.insertTextReq 2 none "a",
      Request.insertTextReq 3 none "\n"]
    formatRequests := []
    textRanges := []
    formattingStack := []
    listStack := [(⟨ListType.bullet, 0⟩ : ListState)]
    paragraphRanges := []
    pendingListItems := [(⟨1, (some 3), 0, "BULLET_DISC_CIRCLE_SQUARE", false⟩ : PendingListItem),
      (⟨1, (some 3), 1, "BULLET_DISC_CIRCLE_SQUARE", true⟩ : PendingListItem)]
    openListItemStack := []
    hrRanges := []
    tabId := none
    currentParagraphStart := none
    currentHeadingLevel := none }

theorem ctxNesteds10 : processToken (Token.mk "list_item_close" "li" "" [] TokenList.nil) ctxNested9 = Except.ok ctxNested10 := by
  rfl

def ctxNested11 : ConversionContext :=
  { currentIndex := 4
    insertRequests := [Request.insertTextReq 1 none "\t",
      Request.insertTextReq 2 none "a",
      Request.insertTextReq 3 none "\n"]
    formatRequests := []
    textRanges := []
    formattingStack := []
    listStack := []
    paragraphRanges := []
    pendingListItems := [(⟨1, (some 3), 0, "BULLET_DISC_CIRCLE_SQUARE", false⟩ : PendingListItem),
      (⟨1, (some 3), 1, "BULLET_DISC_CIRCLE_SQUARE", true⟩ : PendingListItem)]
    openListItemStack := []
    hrRanges := []
    tabId := none
    currentParagraphStart := none
    currentHeadingLevel := none }

theorem ctxNesteds11 : processToken (Token.mk "bullet_list_close" "ul" "" [] TokenList.nil) ctxNested10 = Except.ok ctxNested11 := by
  rfl

theorem ctxNestedpass : processTokenList tokensNestedList ctxNested0 = Except.ok ctxNested11 := by
  have h0 : tokensNestedList = (TokenList.cons (Token.mk "bullet_list_open" "ul" "" [] TokenList.nil) (TokenList.cons (Token.mk "list_item_open" "li" "" [] TokenList.nil) (TokenList.cons (Token.mk "bullet_list_open" "ul" "" [] TokenList.nil) (TokenList.cons (Token.mk "list_item_open" "li" "" [] TokenList.nil) (TokenList.cons (Token.mk "paragraph_open" "p" "" [] TokenList.nil) (TokenList.cons (Token.mk "inline" "" "a" [] (TokenList.cons (Token.mk "text" "" "a" [] TokenList.nil) TokenList.nil)) (TokenList.cons (Token.mk "paragraph_close" "p" "" [] TokenList.nil) (TokenList.cons (Token.mk "list_item_close" "li" "" [] TokenList.nil) (TokenList.cons (Token.mk "bullet_list_close" "ul" "" [] TokenList.nil) (TokenList.cons (Token.mk "list_item_close" "li" "" [] TokenList.nil) (TokenList.cons (Token.mk "bullet_list_close" "ul" "" [] TokenList.nil) TokenList.nil))))))))))) := rfl
  rw [h0, processTokenList_cons_ok ctxNesteds1,
    processTokenList_cons_ok ctxNesteds2,
    processTokenList_cons_ok ctxNesteds3,
    processTokenList_cons_ok ctxNesteds4,
    processTokenList_cons_ok ctxNesteds5,
    processTokenList_cons_ok ctxNesteds6,
    processTokenList_cons_ok ctxNesteds7,
    processTokenList_cons_ok ctxNesteds8,
    processTokenList_cons_ok ctxNesteds9,
    processTokenList_cons_ok ctxNesteds10,
    processTokenList_cons_ok ctxNesteds11]
  rfl

def ctxNestedF : ConversionContext :=
  { currentIndex := 4
    insertRequests := [Request.insertTextReq 1 none "\t",
      Request.insertTextReq 2 none "a",
      Request.insertTextReq 3 none "\n"]
    formatRequests := [Request.createParagraphBulletsReq 1 3 none "BULLET_DISC_CIRCLE_SQUARE",
      Request.createParagraphBulletsReq 1 3 none "BULLET_DISC_CIRCLE_SQUARE"]
    textRanges := []
    formattingStack := []
    listStack := []
    paragraphRanges := []
    pendingListItems := [(⟨1, (some 3), 0, "BULLET_DISC_CIRCLE_SQUARE", false⟩ : PendingListItem),
      (⟨1, (some 3), 1, "BULLET_DISC_CIRCLE_SQUARE", true⟩ : PendingListItem)]
    openListItemStack := []
    hrRanges := []
    tabId := none
    currentParagraphStart := none
    currentHeadingLevel := none }

theorem ctxNestedfin : finalizeFormatting ctxNested11 = Except.ok ctxNestedF := by
  rfl

theorem ctxNestedconv : convertTokensToRequests tokensNestedList 1 none =
    Except.ok [Request.insertTextReq 1 none "\t",
      Request.insertTextReq 2 none "a",
      Request.insertTextReq 3 none "\n",
      Request.createParagraphBulletsReq 1 3 none "BULLET_DISC_CIRCLE_SQUARE",
      Request.createParagraphBulletsReq 1 3 none "BULLET_DISC_CIRCLE_SQUARE"] := by
  rw [convertTokens_eq_of_pass ctxNestedpass ctxNestedfin]
  rfl
def ctxLooseP0 : ConversionContext := initialContext 1 none

def ctxLooseP1 : ConversionContext :=
  { currentIndex := 1
    insertRequests := []
    formatRequests := []
    textRanges := []
    formattingStack := []
    listStack := [(⟨ListType.bullet, 0⟩ : ListState)]
    paragraphRanges := []
    pendingListItems := []
    openListItemStack := []
    hrRanges := []
    tabId := none
    currentParagraphStart := none
    currentHeadingLevel := none }

theorem ctxLoosePs1 : processToken (Token.mk "bullet_list_open" "ul" "" [] TokenList.nil) ctxLooseP0 = Except.ok ctxLooseP1 := by
  rfl

def ctxLooseP2 : ConversionContext :=
  { currentIndex := 1
    insertRequests := []
    formatRequests := []
    textRanges := []
    formattingStack := []
    listStack := [(⟨ListType.bullet, 0⟩ : ListState)]
    paragraphRanges := []
    pendingListItems := [(⟨1, none, 0, "BULLET_DISC_CIRCLE_SQUARE", false⟩ : PendingListItem)]
    openListItemStack := [0]
    hrRanges := []
    tabId := none
    currentParagraphStart := none
    currentHeadingLevel := none }

theorem ctxLoosePs2 : processToken (Token.mk "list_item_open" "li" "" [] TokenList.nil) ctxLooseP1 = Except.ok ctxLooseP2 := by
  rfl

def ctxLooseP3 : ConversionContext :=
  { currentIndex := 1
    insertRequests := []
    formatRequests := []
    textRanges := []
    formattingStack := []
    listStack := [(⟨ListType.bullet, 0⟩ : ListState)]
    paragraphRanges := []
    pendingListItems := [(⟨1, none, 0, "BULLET_DISC_CIRCLE_SQUARE", false⟩ : PendingListItem)]
    openListItemStack := [0]
    hrRanges := []
    tabId := none
    currentParagraphStart := none
    currentHeadingLevel := none }

theorem ctxLoosePs3 : processToken (Token.mk "paragraph_open" "p" "" [] TokenList.nil) ctxLooseP2 = Except.ok ctxLooseP3 := by
  rfl

def ctxLooseP4 : ConversionContext :=
  { currentIndex := 2
    insertRequests := [Request.insertTextReq 1 none "a"]
    formatRequests := []
    textRanges := []
    formattingStack := []
    listStack := [(⟨ListType.bullet, 0⟩ : ListState)]
    paragraphRanges := []
    pendingListItems := [(⟨1, none, 0, "BULLET_DISC_CIRCLE_SQUARE", true⟩ : PendingListItem)]
    openListItemStack := [0]
    hrRanges := []
    tabId := none
    currentParagraphStart := none
    currentHeadingLevel := none }

theorem ctxLoosePs4 : processToken (Token.mk "inline" "" "a" [] (TokenList.cons (Token.mk "text" "" "a" [] TokenList.nil) TokenList.nil)) ctxLooseP3 = Except.ok ctxLooseP4 := by
  rfl

def ctxLooseP5 : ConversionContext :=
  { currentIndex := 3
    insertRequests := [Request.insertTextReq 1 none "a",
      Request.insertTextReq 2 none "\n"]
    formatRequests := []
    textRanges := []
    formattingStack := []
    listStack := [(⟨ListType.bullet, 0⟩ : ListState)]
    paragraphRanges := []
    pendingListItems := [(⟨1, (some 2), 0, "BULLET_DISC_CIRCLE_SQUARE", true⟩ : PendingListItem)]
    openListItemStack := [0]
    hrRanges := []
    tabId := none
    currentParagraphStart := none
    currentHeadingLevel := none }

theorem ctxLoosePs5 : processToken (Token.mk "paragraph_close" "p" "" [] TokenList.nil) ctxLooseP4 = Except.ok ctxLooseP5 := by
  rfl

theorem ctxLoosePpass : processTokenList tokensLoosePre ctxLooseP0 = Except.ok ctxLooseP5 := by
  have h0 : tokensLoosePre = (TokenList.cons (Token.mk "bullet_list_open" "ul" "" [] TokenList.nil) (TokenList.cons (Token.mk "list_item_open" "li" "" [] TokenList.nil) (TokenList.cons (Token.mk "paragraph_open" "p" "" [] TokenList.nil) (TokenList.cons (Token.mk "inline" "" "a" [] (TokenList.cons (Token.mk "text" "" "a" [] TokenList.nil) TokenList.nil)) (TokenList.cons (Token.mk "paragraph_close" "p" "" [] TokenList.nil) TokenList.nil))))) := rfl
  rw [h0, processTokenList_cons_ok ctxLoosePs1,
    processTokenList_cons_ok ctxLoosePs2,
    processTokenList_cons_ok ctxLoosePs3,
    processTokenList_cons_ok ctxLoosePs4,
    processTokenList_cons_ok ctxLoosePs5]
  rfl

def ctxLoosePF : ConversionContext :=
  { currentIndex := 3
    insertRequests := [Request.insertTextReq 1 none "a",
      Request.insertTextReq 2 none "\n"]
    formatRequests := [Request.createParagraphBulletsReq 1 2 none "BULLET_DISC_CIRCLE_SQUARE"]
    textRanges := []
    formattingStack := []
    listStack := [(⟨ListType.bullet, 0⟩ : ListState)]
    paragraphRanges := []
    pendingListItems := [(⟨1, (some 2), 0, "BULLET_DISC_CIRCLE_SQUARE", true⟩ : PendingListItem)]
    openListItemStack := [0]
    hrRanges := []
    tabId := none
    currentParagraphStart := none
    currentHeadingLevel := none }

theorem ctxLoosePfin : finalizeFormatting ctxLooseP5 = Except.ok ctxLoosePF := by
  rfl

theorem ctxLoosePconv : convertTokensToRequests tokensLoosePre 1 none =
    Except.ok [Request.insertTextReq 1 none "a",
      Request.insertTextReq 2 none "\n",
      Request.createParagraphBulletsReq 1 2 none "BULLET_DISC_CIRCLE_SQUARE"] := by
  rw [convertTokens_eq_of_pass ctxLoosePpass ctxLoosePfin]
  rfl
def ctxLoose0 : ConversionContext := initialContext 1 none

def ctxLoose1 : ConversionContext :=
  { currentIndex := 1
    insertRequests := []
    formatRequests := []
    textRanges := []
    formattingStack := []
    listStack := [(⟨ListType.bullet, 0⟩ : ListState)]
    paragraphRanges := []
    pendingListItems := []
    openListItemStack := []
    hrRanges := []
    tabId := none
    currentParagraphStart := none
    currentHeadingLevel := none }

theorem ctxLooses1 : processToken (Token.mk "bullet_list_open" "ul" "" [] TokenList.nil) ctxLoose0 = Except.ok ctxLoose1 := by
  rfl

def ctxLoose2 : ConversionContext :=
  { currentIndex := 1
    insertRequests := []
    formatRequests := []
    textRanges := []
    formattingStack := []
    listStack := [(⟨ListType.bullet, 0⟩ : ListState)]
    paragraphRanges := []
    pendingListItems := [(⟨1, none, 0, "BULLET_DISC_CIRCLE_SQUARE", false⟩ : PendingListItem)]
    openListItemStack := [0]
    hrRanges := []
    tabId := none
    currentParagraphStart := none
    currentHeadingLevel := none }

theorem ctxLooses2 : processToken (Token.mk "list_item_open" "li" "" [] TokenList.nil) ctxLoose1 = Except.ok ctxLoose2 := by
  rfl

def ctxLoose3 : ConversionContext :=
  { currentIndex := 1
    insertRequests := []
    formatRequests := []
    textRanges := []
    formattingStack := []
    listStack := [(⟨ListType.bullet, 0⟩ : ListState)]
    paragraphRanges := []
    pendingListItems := [(⟨1, none, 0, "BULLET_DISC_CIRCLE_SQUARE", false⟩ : PendingListItem)]
    openListItemStack := [0]
    hrRanges := []
    tabId := none
    currentParagraphStart := none
    currentHeadingLevel := none }

theorem ctxLooses3 : processToken (Token.mk "paragraph_open" "p" "" [] TokenList.nil) ctxLoose2 = Except.ok ctxLoose3 := by
  rfl

def ctxLoose4 : ConversionContext :=
  { currentIndex := 2
    insertRequests := [Request.insertTextReq 1 none "a"]
    formatRequests := []
    textRanges := []
    formattingStack := []
    listStack := [(⟨ListType.bullet, 0⟩ : ListState)]
    paragraphRanges := []
    pendingListItems := [(⟨1, none, 0, "BULLET_DISC_CIRCLE_SQUARE", true⟩ : PendingListItem)]
    openListItemStack := [0]
    hrRanges := []
    tabId := none
    currentParagraphStart := none
    currentHeadingLevel := none }

theorem ctxLooses4 : processToken (Token.mk "inline" "" "a" [] (TokenList.cons (Token.mk "text" "" "a" [] TokenList.nil) TokenList.nil)) ctxLoose3 = Except.ok ctxLoose4 := by
  rfl

def ctxLoose5 : ConversionContext :=
  { currentIndex := 3
    insertRequests := [Request.insertTextReq 1 none "a",
      Request.insertTextReq 2 none "\n"]
    formatRequests := []
    textRanges := []
    formattingStack := []
    listStack := [(⟨ListType.bullet, 0⟩ : ListState)]
    paragraphRanges := []
    pendingListItems := [(⟨1, (some 2), 0, "BULLET_DISC_CIRCLE_SQUARE", true⟩ : PendingListItem)]
    openListItemStack := [0]
    hrRanges := []
    tabId := none
    currentParagraphStart := none
    currentHeadingLevel := none }

theorem ctxLooses5 : processToken (Token.mk "paragraph_close" "p" "" [] TokenList.nil) ctxLoose4 = Except.ok ctxLoose5 := by
  rfl

def ctxLoose6 : ConversionContext :=
  { currentIndex := 3
    insertRequests := [Request.insertTextReq 1 none "a",
      Request.insertTextReq 2 none "\n"]
    formatRequests := []
    textRanges := []
    formattingStack := []
    listStack := [(⟨ListType.bullet, 0⟩ : ListState)]
    paragraphRanges := []
    pendingListItems := [(⟨1, (some 2), 0, "BULLET_DISC_CIRCLE_SQUARE", true⟩ : PendingListItem)]
    openListItemStack := [0]
    hrRanges := []
    tabId := none
    currentParagraphStart := none
    currentHeadingLevel := none }

theorem ctxLooses6 : processToken (Token.mk "paragraph_open" "p" "" [] TokenList.nil) ctxLoose5 = Except.ok ctxLoose6 := by
  rfl

def ctxLoose7 : ConversionContext :=
  { currentIndex := 4
    insertRequests := [Request.insertTextReq 1 none "a",
      Request.insertTextReq 2 none "\n",
      Request.insertTextReq 3 none "b"]
    formatRequests := []
    textRanges := []
    formattingStack := []
    listStack := [(⟨ListType.bullet, 0⟩ : ListState)]
    paragraphRanges := []
    pendingListItems := [(⟨1, (some 2), 0, "BULLET_DISC_CIRCLE_SQUARE", true⟩ : PendingListItem)]
    openListItemStack := [0]
    hrRanges := []
    tabId := none
    currentParagraphStart := none
    currentHeadingLevel := none }

theorem ctxLooses7 : processToken (Token.mk "inline" "" "b" [] (TokenList.cons (Token.mk "text" "" "b" [] TokenList.nil) TokenList.nil)) ctxLoose6 = Except.ok ctxLoose7 := by
  rfl

def ctxLoose8 : ConversionContext :=
  { currentIndex := 5
    insertRequests := [Request.insertTextReq 1 none "a",
      Request.insertTextReq 2 none "\n",
      Request.insertTextReq 3 none "b",
      Request.insertTextReq 4 none "\n"]
    formatRequests := []
    textRanges := []
    formattingStack := []
    listStack := [(⟨ListType.bullet, 0⟩ : ListState)]
    paragraphRanges := []
    pendingListItems := [(⟨1, (some 4), 0, "BULLET_DISC_CIRCLE_SQUARE", true⟩ : PendingListItem)]
    openListItemStack := [0]
    hrRanges := []
    tabId := none
    currentParagraphStart := none
    currentHeadingLevel := none }

theorem ctxLooses8 : processToken (Token.mk "paragraph_close" "p" "" [] TokenList.nil) ctxLoose7 = Except.ok ctxLoose8 := by
  rfl

def ctxLoose9 : ConversionContext :=
  { currentIndex := 5
    insertRequests := [Request.insertTextReq 1 none "a",
      Request.insertTextReq 2 none "\n",
      Request.insertTextReq 3 none "b",
      Request.insertTextReq 4 none "\n"]
    formatRequests := []
    textRanges := []
    formattingStack := []
    listStack := [(⟨ListType.bullet, 0⟩ : ListState)]
    paragraphRanges := []
    pendingListItems := [(⟨1, (some 4), 0, "BULLET_DISC_CIRCLE_SQUARE", true⟩ : PendingListItem)]
    openListItemStack := []
    hrRanges := []
    tabId := none
    currentParagraphStart := none
    currentHeadingLevel := none }

theorem ctxLooses9 : processToken (Token.mk "list_item_close" "li" "" [] TokenList.nil) ctxLoose8 = Except.ok ctxLoose9 := by
  rfl

def ctxLoose10 : ConversionContext :=
  { currentIndex := 5
    insertRequests := [Request.insertTextReq 1 none "a",
      Request.insertTextReq 2 none "\n",
      Request.insertTextReq 3 none "b",
      Request.insertTextReq 4 none "\n"]
    formatRequests := []
    textRanges := []
    formattingStack := []
    listStack := []
    paragraphRanges := []
    pendingListItems := [(⟨1, (some 4), 0, "BULLET_DISC_CIRCLE_SQUARE", true⟩ : PendingListItem)]
    openListItemStack := []
    hrRanges := []
    tabId := none
    currentParagraphStart := none
    currentHeadingLevel := none }

theorem ctxLooses10 : processToken (Token.mk "bullet_list_close" "ul" "" [] TokenList.nil) ctxLoose9 = Except.ok ctxLoose10 := by
  rfl

theorem ctxLoosepass : processTokenList tokensLooseList ctxLoose0 = Except.ok ctxLoose10 := by
  have h0 : tokensLooseList = (TokenList.cons (Token.mk "bullet_list_open" "ul" "" [] TokenList.nil) (TokenList.cons (Token.mk "list_item_open" "li" "" [] TokenList.nil) (TokenList.cons (Token.mk "paragraph_open" "p" "" [] TokenList.nil) (TokenList.cons (Token.mk "inline" "" "a" [] (TokenList.cons (Token.mk "text" "" "a" [] TokenList.nil) TokenList.nil)) (TokenList.cons (Token.mk "paragraph_close" "p" "" [] TokenList.nil) (TokenList.cons (Token.mk "paragraph_open" "p" "" [] TokenList.nil) (TokenList.cons (Token.mk "inline" "" "b" [] (TokenList.cons (Token.mk "text" "" "b" [] TokenList.nil) TokenList.nil)) (TokenList.cons (Token.mk "paragraph_close" "p" "" [] TokenList.nil) (TokenList.cons (Token.mk "list_item_close" "li" "" [] TokenList.nil) (TokenList.cons (Token.mk "bullet_list_close" "ul" "" [] TokenList.nil) TokenList.nil)))))))))) := rfl
  rw [h0, processTokenList_cons_ok ctxLooses1,
    processTokenList_cons_ok ctxLooses2,
    processTokenList_cons_ok ctxLooses3,
    processTokenList_cons_ok ctxLooses4,
    processTokenList_cons_ok ctxLooses5,
    processTokenList_cons_ok ctxLooses6,
    processTokenList_cons_ok ctxLooses7,
    processTokenList_cons_ok ctxLooses8,
    processTokenList_cons_ok ctxLooses9,
    processTokenList_cons_ok ctxLooses10]
  rfl

def ctxLooseF : ConversionContext :=
  { currentIndex := 5
    insertRequests := [Request.insertTextReq 1 none "a",
      Request.insertTextReq 2 none "\n",
      Request.insertTextReq 3 none "b",
      Request.insertTextReq 4 none "\n"]
    formatRequests := [Request.createParagraphBulletsReq 1 4 none "BULLET_DISC_CIRCLE_SQUARE"]
    textRanges := []
    formattingStack := []
    listStack := []
    paragraphRanges := []
    pendingListItems := [(⟨1, (some 4), 0, "BULLET_DISC_CIRCLE_SQUARE", true⟩ : PendingListItem)]
    openListItemStack := []
    hrRanges := []
    tabId := none
    currentParagraphStart := none
    currentHeadingLevel := none }

theorem ctxLoosefin : finalizeFormatting ctxLoose10 = Except.ok ctxLooseF := by
  rfl

theorem ctxLooseconv : convertTokensToRequests tokensLooseList 1 none =
    Except.ok [Request.insertTextReq 1 none "a",
      Request.insertTextReq 2 none "\n",
      Request.insertTextReq 3 none "b",
      Request.insertTextReq 4 none "\n",
      Request.createParagraphBulletsReq 1 4 none "BULLET_DISC_CIRCLE_SQUARE"] := by
  rw [convertTokens_eq_of_pass ctxLoosepass ctxLoosefin]
  rfl

-- ### Support lemmas for the claim theorems

/-- `match o with | some v => some v | none => none` is the identity. -/
theorem option_match_none_id {α : Type} (o : Option α) :
    (match o with | some v => some v | none => (none : Option α)) = o := by
  cases o <;> rfl

/-- The fold of `mergeFormattingStack`, viewed through any field getter
that the one-step merge treats by "defined overrides". -/
theorem foldl_merge_getter {α : Type} (g : FormattingState → Option α)
    (hg : ∀ m s1, g (mergeOneFormattingState m s1) =
      match g s1 with | some v => some v | none => g m)
    (stack : List FormattingState) :
    ∀ a, g (stack.foldl mergeOneFormattingState a) =
      match lastDefined (stack.map g) with
      | some v => some v
      | none => g a := by
  induction stack with
  | nil => intro a; rfl
  | cons x xs ih =>
    intro a
    simp only [List.foldl_cons, List.map_cons]
    rw [ih]
    have hLD : lastDefined (g x :: xs.map g) =
        match lastDefined (xs.map g) with | some v => some v | none => g x := rfl
    rw [hLD]
    cases hL : lastDefined (xs.map g) with
    | some v => rfl
    | none => rw [hg]

/-- The merged formatting state is, field by field, the last defined write
of the stack (oldest to newest). -/
theorem mergeFormattingStack_lastDefined (stack : List FormattingState) :
    (mergeFormattingStack stack).bold = lastDefined (stack.map FormattingState.bold) ∧
    (mergeFormattingStack stack).italic = lastDefined (stack.map FormattingState.italic) ∧
    (mergeFormattingStack stack).strikethrough =
      lastDefined (stack.map FormattingState.strikethrough) ∧
    (mergeFormattingStack stack).code = lastDefined (stack.map FormattingState.code) ∧
    (mergeFormattingStack stack).link = lastDefined (stack.map FormattingState.link) := by
  refine ⟨?_, ?_, ?_, ?_, ?_⟩
  · rw [show (mergeFormattingStack stack).bold =
      FormattingState.bold (stack.foldl mergeOneFormattingState {}) from rfl,
      foldl_merge_getter FormattingState.bold (fun m s1 => by cases h : s1.bold <;> simp [mergeOneFormattingState, h]) stack {}]
    exact option_match_none_id _
  · rw [show (mergeFormattingStack stack).italic =
      FormattingState.italic (stack.foldl mergeOneFormattingState {}) from rfl,
      foldl_merge_getter FormattingState.italic (fun m s1 => by cases h : s1.italic <;> simp [mergeOneFormattingState, h]) stack {}]
    exact option_match_none_id _
  · rw [show (mergeFormattingStack stack).strikethrough =
      FormattingState.strikethrough (stack.foldl mergeOneFormattingState {}) from rfl,
      foldl_merge_getter FormattingState.strikethrough (fun m s1 => by cases h : s1.strikethrough <;> simp [mergeOneFormattingState, h]) stack {}]
    exact option_match_none_id _
  · rw [show (mergeFormattingStack stack).code =
      FormattingState.code (stack.foldl mergeOneFormattingState {}) from rfl,
      foldl_merge_getter FormattingState.code (fun m s1 => by cases h : s1.code <;> simp [mergeOneFormattingState, h]) stack {}]
    exact option_match_none_id _
  · rw [show (mergeFormattingStack stack).link =
      FormattingState.link (stack.foldl mergeOneFormattingState {}) from rfl,
      foldl_merge_getter FormattingState.link (fun m s1 => by cases h : s1.link <;> simp [mergeOneFormattingState, h]) stack {}]
    exact option_match_none_id _

/-- What `textTokenEmit` records: a styled span over exactly the emitted
text, carrying the merged formatting, and only when that merged state is
non-empty. -/
theorem textTokenEmit_textRanges (text : String) (c : ConversionContext) :
    (textTokenEmit text c).textRanges =
      if text = "" then c.textRanges
      else if hasFormatting (mergeFormattingStack c.formattingStack) then
        c.textRanges ++
          [(⟨c.currentIndex, c.currentIndex + text.length,
            mergeFormattingStack c.formattingStack⟩ : TextRange)]
      else c.textRanges := by
  by_cases h : text = ""
  · rw [if_pos h]
    show (textTokenEmit text c).textRanges = c.textRanges
    unfold textTokenEmit
    rw [if_pos h]
  · rw [if_neg h]
    simp only [textTokenEmit, if_neg h, insertText]
    split <;> rfl

/-- An unmatched inline-style close is a no-op: when no stack entry has the
closed field defined, `popFormatting` leaves the context unchanged. -/
theorem popFormatting_unmatched (c : ConversionContext) (k : FmtKey)
    (h : ∀ st ∈ c.formattingStack, formattingFieldDefined st k = false) :
    popFormatting c k = c := by
  have h2 : ∀ st ∈ c.formattingStack.reverse,
      ¬ (formattingFieldDefined st k = true) := by
    intro st hst
    rw [h st (List.mem_reverse.mp hst)]
    simp
  unfold popFormatting
  rw [List.eraseP_of_forall_not h2, List.reverse_reverse]

/-- All-whitespace input trims to the empty string. -/
theorem jsTrim_length_zero {md : String}
    (h : ∀ ch ∈ md.data, isJsWhitespace ch = true) :
    (jsTrim md).length = 0 := by
  unfold jsTrim
  rw [List.dropWhile_eq_nil_iff.mpr h]
  rfl

/-- The wrapped internal-fault message never equals the caller-input
list-item message: the two error shapes stay distinguishable. -/
theorem convWrap_ne_listItemMsg (m : String) :
    convWrapHead ++ m ≠ listItemMsg := by
  intro h
  have h1 : (convWrapHead ++ m).data = listItemMsg.data := by rw [h]
  rw [String.data_append] at h1
  have h2 : (convWrapHead.data ++ m.data).take convWrapHead.data.length =
      listItemMsg.data.take convWrapHead.data.length := by rw [h1]
  rw [List.take_left] at h2
  exact absurd h2 (by decide)

/-- `handleListItemOpen` fails exactly when no list is open, and then with
the caller-input error. -/
theorem handleListItemOpen_error_iff (c : ConversionContext) :
    (handleListItemOpen c = Except.error (Exc.mce listItemMsg) ↔ c.listStack = []) ∧
    (∀ e, handleListItemOpen c = Except.error e → e = Exc.mce listItemMsg) := by
  constructor
  · constructor
    · intro h
      cases hL : c.listStack.getLast? with
      | none => exact List.getLast?_eq_none_iff.mp hL
      | some cur =>
        unfold handleListItemOpen at h
        rw [hL] at h
        cases h
    · intro h
      have hL : c.listStack.getLast? = none := List.getLast?_eq_none_iff.mpr h
      unfold handleListItemOpen
      rw [hL]
  · intro e h
    cases hL : c.listStack.getLast? with
    | none =>
      unfold handleListItemOpen at h
      rw [hL] at h
      exact ((Except.error.injEq _ _).mp h).symm
    | some cur =>
      unfold handleListItemOpen at h
      rw [hL] at h
      cases h

/-- The bullet preset carried by a bullet-assignment request (`""` for any
other request kind). -/
def Request.bulletKind : Request → String
  | Request.createParagraphBulletsReq _ _ _ p => p
  | _ => ""

-- ### Claim support and claim theorems

/-- From an open item, the strip stage leaves the same item index open and
marks it task-processed. -/
theorem getCurrentOpenListItem_stack {c : ConversionContext} {i : Nat}
    {item : PendingListItem} (h : getCurrentOpenListItem c = some (i, item)) :
    c.openListItemStack.getLast? = some i := by
  unfold getCurrentOpenListItem at h
  split at h
  · cases h
  · next j hg =>
    split at h
    · cases h
    · cases h
      exact hg

/-- Updating the open item in place keeps it the open item. -/
theorem getCurrentOpenListItem_set (c : ConversionContext) (i : Nat)
    (item it' : PendingListItem) (h : getCurrentOpenListItem c = some (i, item)) :
    getCurrentOpenListItem { c with pendingListItems := c.pendingListItems.set i it' } =
      some (i, it') := by
  have hlen : i < c.pendingListItems.length :=
    (List.getElem?_eq_some.mp (getCurrentOpenListItem_some h)).1
  unfold getCurrentOpenListItem
  rw [show ({ c with pendingListItems := c.pendingListItems.set i it' } :
      ConversionContext).openListItemStack = c.openListItemStack from rfl,
    getCurrentOpenListItem_stack h]
  rw [show ({ c with pendingListItems := c.pendingListItems.set i it' } :
      ConversionContext).pendingListItems = c.pendingListItems.set i it' from rfl]
  simp [List.getElem?_set_self', hlen]

/-- After one strip stage on an open item, the open item is marked
processed. -/
theorem stripStage_marks (text : String) (c : ConversionContext) (i : Nat)
    (item : PendingListItem) (h : getCurrentOpenListItem c = some (i, item)) :
    ∃ item', getCurrentOpenListItem (textTokenStripStage text c).2 = some (i, item') ∧
      item'.taskPrefixProcessed = true := by
  unfold textTokenStripStage
  cases hgc : getCurrentOpenListItem c with
  | none => rw [hgc] at h; cases h
  | some pair =>
    rw [hgc] at h
    cases h
    simp only
    split
    · split
      · exact ⟨_, getCurrentOpenListItem_set c i item _ hgc, rfl⟩
      · exact ⟨_, getCurrentOpenListItem_set c i item _ hgc, rfl⟩
    · next hnp =>
      exact ⟨item, hgc, not_not.mp hnp⟩

/-- The strip stage is the identity once the open item is marked. -/
theorem stripStage_processed (text : String) (c : ConversionContext) (i : Nat)
    (item : PendingListItem) (h : getCurrentOpenListItem c = some (i, item))
    (hp : item.taskPrefixProcessed = true) :
    textTokenStripStage text c = (text, c) := by
  unfold textTokenStripStage
  cases hgc : getCurrentOpenListItem c with
  | none => rfl
  | some pair =>
    rw [hgc] at h
    cases h
    simp only
    rw [if_neg (by simp [hp])]

/-- The strip never fires twice on the same open item. -/
theorem stripStage_once (text1 text2 : String) (c : ConversionContext) (i : Nat)
    (item : PendingListItem) (h : getCurrentOpenListItem c = some (i, item)) :
    textTokenStripStage text2 (textTokenStripStage text1 c).2 =
      (text2, (textTokenStripStage text1 c).2) := by
  obtain ⟨item', h', hp⟩ := stripStage_marks text1 c i item h
  exact stripStage_processed text2 _ i item' h' hp

-- ### The claim theorems

/-- C1: for every token stream, starting offset and region id, on a
successful conversion the emitted insertions are laid out contiguously —
each located at the running offset and advancing it by the inserted text's
length (`WellPlaced`) — the final offset equals the starting offset plus
the sum of all inserted lengths, and every returned operation addresses
offsets inside `[startOffset, finalOffset]`. -/
theorem claim_C1 (ts : TokenList) (s : Nat) (tab : Option String) (ops : List Request)
    (h : convertTokensToRequests ts s tab = Except.ok ops) :
    ∃ ctx, processTokenList ts (initialContext s tab) = Except.ok ctx ∧
      WellPlaced s ctx.insertRequests ∧
      ctx.currentIndex = s + sumInsLen ctx.insertRequests ∧
      ∀ r ∈ ops, opWithin s ctx.currentIndex r = true := by
  obtain ⟨ctx, hp, hinv, hall⟩ := convert_ops_within h
  exact ⟨ctx, hp, hinv.placed, hinv.idx, hall⟩

/-- C1 witness: the bold-text scenario instantiates the invariant. -/
theorem claim_C1_witness :
    ∃ ctx, processTokenList tokensBoldText (initialContext 1 none) = Except.ok ctx ∧
      WellPlaced 1 ctx.insertRequests ∧
      ctx.currentIndex = 1 + sumInsLen ctx.insertRequests ∧
      ∀ r ∈ [Request.insertTextReq 1 none "bold text",
        Request.insertTextReq 10 none "\n\n",
        Request.updateTextStyleReq 1 10 none
          (⟨(some true), none, none, none, none, none, none, none, none⟩ : TextStyle)
          "bold"], opWithin 1 ctx.currentIndex r = true :=
  claim_C1 tokensBoldText 1 none _ ctxBoldconv

/-- C2 (corrected): the finalizer emits exactly one bullet-assignment per
pending item whose `endIndex` is set and exceeds its `startIndex`, appended
after every other style operation, sorted by `startIndex` in descending —
but not strictly descending — order (equal start offsets occur, e.g. for a
nested item opening at its parent's offset). -/
theorem claim_C2 (c : ConversionContext) :
    ∃ c2 nonBullet items,
      finalizeFormatting c = Except.ok c2 ∧
      c2.insertRequests = c.insertRequests ∧
      c2.formatRequests = c.formatRequests ++ nonBullet ++ items.map (bulletOpOf c.tabId) ∧
      (∀ a ∈ nonBullet, a.isBullet = false) ∧
      (∀ a ∈ items.map (bulletOpOf c.tabId), a.isBullet = true) ∧
      items.Perm (c.pendingListItems.filter survivingListItem) ∧
      List.Chain' descByStart items := by
  obtain ⟨c2, nonBullet, hfin, hins, hci, hpli, htab, hfmt, hnb⟩ := finalizeFormatting_ok c
  have hsurv : ∀ it ∈ sortByStartDesc (c.pendingListItems.filter survivingListItem),
      survivingListItem it = true := by
    intro it hit
    exact List.of_mem_filter ((sortByStartDesc_perm _).mem_iff.mp hit)
  have hbul : bulletRequestsOf c =
      (sortByStartDesc (c.pendingListItems.filter survivingListItem)).map
        (bulletOpOf c.tabId) := by
    unfold bulletRequestsOf
    exact bulletFlatten_eq_map c.tabId _ hsurv
  refine ⟨c2, nonBullet, sortByStartDesc (c.pendingListItems.filter survivingListItem),
    hfin, hins, ?_, ?_, ?_, sortByStartDesc_perm _, sortByStartDesc_chain _⟩
  · rw [hfmt, hbul]
  · intro a ha
    rcases hnb a ha with ⟨tr, _, ts', fs', rfl⟩ | ⟨p, _, ps', fs', rfl⟩ | ⟨hr, _, rfl⟩ <;> rfl
  · intro a ha
    obtain ⟨it, _, rfl⟩ := List.mem_map.mp ha
    rfl

/-- C2 counterexample: for the nested-list scenario `"- - a"` the two
bullet operations carry the same `startIndex`, so their order is not
strictly descending. -/
theorem claim_C2_counterexample :
    ((okOps (convertTokensToRequests tokensNestedList 1 none)).filter
        Request.isBullet).map bulletStart = [1, 1] ∧
    ¬ List.Chain' (fun a b : Nat => b < a) [1, 1] := by
  constructor
  · rw [ctxNestedconv]
    rfl
  · simp [List.chain'_cons]

/-- C3: the style recorded for an emitted literal span is the fold of the
formatting stack from oldest to newest with last-writer-wins per field
(`lastDefined` per field); a merged state with no truthy field and no link
records no span; and closing fragments later (`popFormatting`, in any
order) never touches an already-recorded span. -/
theorem claim_C3 (text : String) (c : ConversionContext) :
    ((mergeFormattingStack c.formattingStack).bold =
        lastDefined (c.formattingStack.map FormattingState.bold) ∧
      (mergeFormattingStack c.formattingStack).italic =
        lastDefined (c.formattingStack.map FormattingState.italic) ∧
      (mergeFormattingStack c.formattingStack).strikethrough =
        lastDefined (c.formattingStack.map FormattingState.strikethrough) ∧
      (mergeFormattingStack c.formattingStack).code =
        lastDefined (c.formattingStack.map FormattingState.code) ∧
      (mergeFormattingStack c.formattingStack).link =
        lastDefined (c.formattingStack.map FormattingState.link)) ∧
    ((textTokenEmit text c).textRanges =
      if text = "" then c.textRanges
      else if hasFormatting (mergeFormattingStack c.formattingStack) then
        c.textRanges ++
          [(⟨c.currentIndex, c.currentIndex + text.length,
            mergeFormattingStack c.formattingStack⟩ : TextRange)]
      else c.textRanges) ∧
    (∀ k, (popFormatting c k).textRanges = c.textRanges) :=
  ⟨mergeFormattingStack_lastDefined c.formattingStack,
   textTokenEmit_textRanges text c, fun _ => rfl⟩

/-- C4 (corrected): `"**bold text**"` at offset 1 yields the single bold
character-style operation over `[1, 10)` as claimed, but two insertions —
`"bold text"` at offset 1 and the paragraph terminator `"\n\n"` at offset
10 — not one. -/
theorem claim_C4 :
    convertMarkdownToRequests modelTokenizer "**bold text**" 1 none =
      Except.ok [Request.insertTextReq 1 none "bold text",
        Request.insertTextReq 10 none "\n\n",
        Request.updateTextStyleReq 1 10 none
          (⟨(some true), none, none, none, none, none, none, none, none⟩ : TextStyle)
          "bold"] ∧
    ((okOps (convertMarkdownToRequests modelTokenizer "**bold text**" 1 none)).filter
        Request.isInsert).length = 2 := by
  have hmd : convertMarkdownToRequests modelTokenizer "**bold text**" 1 none =
      convertTokensToRequests tokensBoldText 1 none := rfl
  constructor
  · rw [hmd, ctxBoldconv]
  · rw [hmd, ctxBoldconv]
    rfl

/-- C4 counterexample: the returned list does not contain exactly one
insertion — the paragraph terminator is a second one. -/
theorem claim_C4_counterexample :
    ((okOps (convertMarkdownToRequests modelTokenizer "**bold text**" 1 none)).filter
        Request.isInsert).length ≠ 1 := by
  have hmd : convertMarkdownToRequests modelTokenizer "**bold text**" 1 none =
      convertTokensToRequests tokensBoldText 1 none := rfl
  rw [hmd, ctxBoldconv]
  decide

/-- C5: a conversion fails exactly on a list-item-open with no open list —
and then with the caller-input error — while every unmatched close (item
close with no open item, heading close with no active heading, inline
style close with no matching open fragment) is absorbed as a no-op. -/
theorem claim_C5 (c : ConversionContext) (tag content : String)
    (attrs : List (String × String)) (children : TokenList) :
    (processToken (Token.mk "list_item_open" tag content attrs children) c =
        Except.error (Exc.mce listItemMsg) ↔ c.listStack = []) ∧
    (∀ e, processToken (Token.mk "list_item_open" tag content attrs children) c =
        Except.error e → e = Exc.mce listItemMsg) ∧
    (∀ ts s tab e, convertTokensToRequests ts s tab = Except.error e →
        e = Exc.mce listItemMsg) ∧
    (c.openListItemStack = [] → handleListItemClose c = Except.ok c) ∧
    (c.currentHeadingLevel = none → handleHeadingClose c = c) ∧
    (∀ k, (∀ st ∈ c.formattingStack, formattingFieldDefined st k = false) →
        popFormatting c k = c) := by
  have hred : processToken (Token.mk "list_item_open" tag content attrs children) c =
      handleListItemOpen c := rfl
  obtain ⟨hiff, herr⟩ := handleListItemOpen_error_iff c
  refine ⟨by rw [hred]; exact hiff, by rw [hred]; exact herr,
    fun ts s tab e h => convertTokens_error_master h, ?_, ?_,
    fun k hk => popFormatting_unmatched c k hk⟩
  · intro h
    unfold handleListItemClose
    rw [List.getLast?_eq_none_iff.mpr h]
  · intro h
    unfold handleHeadingClose
    rw [h]

/-- C6: a failing conversion surfaces as a single conversion-level
(`MarkdownConversionError`) error: an internal fault is rewrapped carrying
its innermost message behind the fixed head, which never collides with the
caller-input list-item message, a caller-input error passes through
unchanged, and no operation list is returned alongside an error. -/
theorem claim_C6 (ts : TokenList) (s : Nat) (tab : Option String) :
    (∀ m, wrapConversionError (Exc.other m) = Exc.mce (convWrapHead ++ m)) ∧
    (∀ m, wrapConversionError (Exc.mce m) = Exc.mce m) ∧
    (∀ m, wrapConversionError (Exc.other m) ≠ Exc.mce listItemMsg) ∧
    (∀ e, convertTokensToRequests ts s tab = Except.error e → ∃ m, e = Exc.mce m) ∧
    (∀ e ops, convertTokensToRequests ts s tab = Except.error e →
        convertTokensToRequests ts s tab ≠ Except.ok ops) := by
  refine ⟨fun m => rfl, fun m => rfl, ?_, ?_, ?_⟩
  · intro m h
    exact convWrap_ne_listItemMsg m ((Exc.mce.injEq _ _).mp h)
  · intro e h
    exact ⟨listItemMsg, convertTokens_error_master h⟩
  · intro e ops h hok
    rw [h] at hok
    cases hok

/-- C7: the task-list scenario yields exactly two bullet assignments, both
checkbox, with no `"[x]"`/`"[ ]"` substring in any inserted text; the
task-marker strip fires at most once per item (only on the first text token
of a freshly opened item), and text empty after stripping emits nothing and
records no span. -/
theorem claim_C7 :
    (∃ ops, convertMarkdownToRequests modelTokenizer "- [x] done\n- [ ] todo" 1 none =
        Except.ok ops ∧
      (ops.filter Request.isBullet).length = 2 ∧
      (∀ r ∈ ops, r.isBullet = true → r.bulletKind = "BULLET_CHECKBOX") ∧
      (∀ r ∈ ops, strContainsSub "[x]" r.insText = false ∧
        strContainsSub "[ ]" r.insText = false)) ∧
    (∀ text c i item, getCurrentOpenListItem c = some (i, item) →
        item.taskPrefixProcessed = true → textTokenStripStage text c = (text, c)) ∧
    (∀ text1 text2 c i item, getCurrentOpenListItem c = some (i, item) →
        textTokenStripStage text2 (textTokenStripStage text1 c).2 =
          (text2, (textTokenStripStage text1 c).2)) ∧
    (∀ c, textTokenEmit "" c = c) := by
  have hmd : convertMarkdownToRequests modelTokenizer "- [x] done\n- [ ] todo" 1 none =
      convertTokensToRequests tokensTaskList 1 none := by
    unfold convertMarkdownToRequests
    rw [if_neg (by decide), show modelTokenizer "- [x] done\n- [ ] todo" = tokensTaskList from rfl]
  refine ⟨⟨_, by rw [hmd]; exact ctxTaskconv, by decide, by decide, by decide⟩,
    fun text c i item h hp => stripStage_processed text c i item h hp,
    fun text1 text2 c i item h => stripStage_once text1 text2 c i item h,
    fun c => rfl⟩

/-- C9 (corrected): a pending item's recorded bound always satisfies
`endOffset > startOffset` once set, items are append-only with fixed
`startIndex`, and a set `endOffset` only ever moves forward — but it is not
assigned exactly once: the close of a later contained paragraph re-assigns
it (see the counterexample). -/
theorem claim_C9 {ts : TokenList} {s : Nat} {tab : Option String}
    {ctx : ConversionContext}
    (h : processTokenList ts (initialContext s tab) = Except.ok ctx) :
    (∀ it ∈ ctx.pendingListItems, ∀ e, it.endIndex = some e → it.startIndex < e) ∧
    (∀ (t : Token) (ctx' : ConversionContext), processToken t ctx = Except.ok ctx' →
      ctx.pendingListItems.length ≤ ctx'.pendingListItems.length ∧
      ∀ (j : Nat) (it : PendingListItem), ctx.pendingListItems[j]? = some it →
        ∃ it', ctx'.pendingListItems[j]? = some it' ∧ it'.startIndex = it.startIndex ∧
          ∀ e, it.endIndex = some e → ∃ e', it'.endIndex = some e' ∧ e ≤ e') := by
  obtain ⟨hinv, hev⟩ := pass_ok_inv h
  constructor
  · intro it hit e he
    exact ((hinv.pli it hit).2.2 e he).1
  · intro t ctx' hstep
    have hs := processToken_sound s t ctx hinv
    rw [hstep] at hs
    obtain ⟨hinv', hev'⟩ := hs
    exact ⟨hev'.pliLen, hev'.pliMono⟩

/-- C9 witness: the loose-list prefix instantiates the bound property. -/
theorem claim_C9_witness :
    ∃ ctx, processTokenList tokensLoosePre (initialContext 1 none) = Except.ok ctx ∧
      ∀ it ∈ ctx.pendingListItems, ∀ e, it.endIndex = some e → it.startIndex < e :=
  ⟨ctxLooseP5, ctxLoosePpass, (claim_C9 ctxLoosePpass).1⟩

/-- C9 counterexample: in the loose list `"- a\n\n  b"` the single pending
item's `endOffset` is first set to 2 (close of the first paragraph) and
later re-assigned to 4 (close of the second), so it is not assigned exactly
once. -/
theorem claim_C9_counterexample :
    ∃ c c',
      processTokenList tokensLoosePre (initialContext 1 none) = Except.ok c ∧
      processTokenList tokensLooseList (initialContext 1 none) = Except.ok c' ∧
      tokensLooseList = tokensLoosePre.app tokensLooseRest ∧
      c.pendingListItems.map PendingListItem.endIndex = [some 2] ∧
      c'.pendingListItems.map PendingListItem.endIndex = [some 4] :=
  ⟨ctxLooseP5, ctxLoose10, ctxLoosePpass, ctxLoosepass, rfl, rfl, rfl⟩

/-- C10: empty or all-whitespace input converts to the empty operation
list, not an error. -/
theorem claim_C10 (tokenize : String → TokenList) (md : String) (s : Nat)
    (tab : Option String)
    (h : md = "" ∨ ∀ ch ∈ md.data, isJsWhitespace ch = true) :
    convertMarkdownToRequests tokenize md s tab = Except.ok [] := by
  unfold convertMarkdownToRequests
  rcases h with h | h
  · rw [if_pos (Or.inl h)]
  · rw [if_pos (Or.inr (jsTrim_length_zero h))]

/-- C10 witness: the two scenario inputs of the spec. -/
theorem claim_C10_witness :
    convertMarkdownToRequests modelTokenizer "" 1 none = Except.ok [] ∧
    convertMarkdownToRequests modelTokenizer "   \n\n   " 1 none = Except.ok [] :=
  ⟨claim_C10 modelTokenizer "" 1 none (Or.inl rfl),
   claim_C10 modelTokenizer "   \n\n   " 1 none (Or.inr (by decide))⟩


end GDocs
